import Mathlib

/-!
Shallow embedding of the outcome-reconciliation core of the pmta repository
(`shiva_app.py` and `pmta_accounting_bridge.py`), together with proofs about
the claims on its specification.

Conventions:
* Python `str` is modelled as Lean `String` (operations work on `.data`).
* Python `dict`s used as accounting events are modelled as insertion-ordered
  association lists `List (String × String)`; all values that flow through the
  relevant code paths are strings.
* Python floats used as clock values / backoff durations are modelled as `ℚ`
  (the claims concern the algebraic form of the computations, not rounding).
* Machine integers do not occur; Python ints are `Int` (job counters) or `Nat`.
-/

namespace Pmta

/-! ## Python string primitives -/

/-- Characters removed by Python `str.strip()` (ASCII fragment, which is all
the accounting pipeline ever feeds it). -/
def pyWsChar (c : Char) : Bool :=
  c.toNat = 32 || c.toNat = 9 || c.toNat = 10 || c.toNat = 13 || c.toNat = 11 || c.toNat = 12

/-- `str.strip()` on a character list. -/
def stripList (l : List Char) : List Char :=
  ((l.dropWhile pyWsChar).reverse.dropWhile pyWsChar).reverse

/-- Python `str.strip()`. -/
def pyStrip (s : String) : String := ⟨stripList s.data⟩

/-- Python `str.lower()` (ASCII fragment). `Char.toLower` lowers exactly
`A`–`Z`, which matches CPython on the ASCII inputs of this pipeline. -/
def pyLower (s : String) : String := ⟨s.data.map Char.toLower⟩

/-- `needle` occurs as a contiguous sublist of `hay` (Python `in` on `str`). -/
def listInfix (needle hay : List Char) : Bool :=
  match hay with
  | [] => needle.isEmpty
  | _ :: t => needle.isPrefixOf hay || listInfix needle t

/-- Python `sub in s` for strings. -/
def pyContains (s sub : String) : Bool := listInfix sub.data s.data

/-- Python `s.startswith(p)`. -/
def pyStartsWith (s p : String) : Bool := p.data.isPrefixOf s.data

/-- Python `s.endswith(p)`. -/
def pyEndsWith (s p : String) : Bool := p.data.reverse.isPrefixOf s.data.reverse

/-- `re.sub(r"\s+", " ", s)`: collapse every run of whitespace to one space.
The boolean tracks whether the previous character was whitespace, so a run
emits exactly one `' '` at its first character. -/
def collapseWsAux : Bool → List Char → List Char
  | _, [] => []
  | inWs, c :: t =>
    if pyWsChar c then
      if inWs then collapseWsAux true t else ' ' :: collapseWsAux true t
    else
      c :: collapseWsAux false t

def collapseWsList (l : List Char) : List Char := collapseWsAux false l

/-- String form of `collapseWsList`. -/
def collapseWs (s : String) : String := ⟨collapseWsList s.data⟩

/-! Stability lemmas for the normalisations `strip` / `lower`, used when the
code re-normalises a value that was already normalised (`db_get_outcome`
re-strips and re-lowers what `_apply_outcome_to_job` passes in). -/

theorem char_toLower_toNat_of_upper {c : Char} (h : 65 ≤ c.toNat ∧ c.toNat ≤ 90) :
    (Char.toLower c).toNat = c.toNat + 32 := by
  have hvalid : Char.isValidCharNat (c.toNat + 32) := by
    left; omega
  rw [Char.toLower]
  simp only [ge_iff_le, h, and_self, if_true]
  rw [Char.ofNat, dif_pos hvalid]
  simp only [Char.ofNatAux, Char.toNat, UInt32.ofNat', UInt32.toNat, BitVec.toNat_ofNatLt]

theorem char_toLower_of_not_upper {c : Char} (h : ¬(65 ≤ c.toNat ∧ c.toNat ≤ 90)) :
    Char.toLower c = c := by
  rw [Char.toLower]
  simp only [ge_iff_le, ite_eq_right_iff]
  intro hc
  exact absurd hc h

theorem char_toLower_toLower (c : Char) : Char.toLower (Char.toLower c) = Char.toLower c := by
  by_cases h : 65 ≤ c.toNat ∧ c.toNat ≤ 90
  · have h1 := char_toLower_toNat_of_upper h
    have hno : ¬(65 ≤ (Char.toLower c).toNat ∧ (Char.toLower c).toNat ≤ 90) := by omega
    exact char_toLower_of_not_upper hno
  · simp [char_toLower_of_not_upper h]

theorem pyWsChar_toLower (c : Char) : pyWsChar (Char.toLower c) = pyWsChar c := by
  by_cases h : 65 ≤ c.toNat ∧ c.toNat ≤ 90
  · have h1 := char_toLower_toNat_of_upper h
    have hl : pyWsChar (Char.toLower c) = false := by
      simp only [pyWsChar, h1, Bool.or_eq_false_iff, decide_eq_false_iff_not]
      omega
    have hr : pyWsChar c = false := by
      simp only [pyWsChar, Bool.or_eq_false_iff, decide_eq_false_iff_not]
      omega
    rw [hl, hr]
  · rw [char_toLower_of_not_upper h]

theorem dropWhile_dropWhile (p : α → Bool) (l : List α) :
    (l.dropWhile p).dropWhile p = l.dropWhile p := by
  induction l with
  | nil => rfl
  | cons a t ih =>
    by_cases h : p a
    · simp [List.dropWhile, h, ih]
    · simp [List.dropWhile, h]

theorem dropWhile_eq_self_of_head {p : α → Bool} {l : List α}
    (h : ∀ a ∈ l.head?, p a = false) : l.dropWhile p = l := by
  cases l with
  | nil => rfl
  | cons a t =>
    have ha : p a = false := h a (by simp)
    simp [List.dropWhile, ha]

/-- The right-strip half of `stripList`. -/
def rstripList (l : List Char) : List Char := (l.reverse.dropWhile pyWsChar).reverse

theorem rstripList_rstripList (l : List Char) : rstripList (rstripList l) = rstripList l := by
  simp [rstripList, dropWhile_dropWhile]

theorem rstripList_prefix (l : List Char) : rstripList l <+: l := by
  have h := List.dropWhile_suffix (l := l.reverse) pyWsChar
  have := h.reverse
  simpa [rstripList] using this

theorem head?_rstripList (l : List Char) (a : Char) (ha : a ∈ (rstripList l).head?) :
    a ∈ l.head? := by
  obtain ⟨t, ht⟩ := rstripList_prefix l
  cases hr : rstripList l with
  | nil => simp [hr] at ha
  | cons b u =>
    rw [hr] at ht ha
    simp at ha
    subst ha
    rw [← ht]
    simp

theorem head?_dropWhile_false (p : α → Bool) (l : List α) :
    ∀ a ∈ (l.dropWhile p).head?, p a = false := by
  induction l with
  | nil => simp
  | cons b t ih =>
    by_cases h : p b
    · simpa [List.dropWhile, h] using ih
    · intro a ha
      simp [List.dropWhile, h] at ha
      subst ha
      simpa using h

theorem stripList_stripList (l : List Char) : stripList (stripList l) = stripList l := by
  show stripList (rstripList (l.dropWhile pyWsChar)) = rstripList (l.dropWhile pyWsChar)
  set x := l.dropWhile pyWsChar with hx
  have hhead : ∀ a ∈ (rstripList x).head?, pyWsChar a = false := by
    intro a ha
    exact head?_dropWhile_false pyWsChar l (a := a) (by rw [← hx]; exact head?_rstripList x a ha)
  show rstripList ((rstripList x).dropWhile pyWsChar) = rstripList x
  rw [dropWhile_eq_self_of_head hhead, rstripList_rstripList]

theorem stripList_map_toLower (l : List Char) :
    stripList (l.map Char.toLower) = (stripList l).map Char.toLower := by
  have hdw : ∀ m : List Char,
      (m.map Char.toLower).dropWhile pyWsChar = (m.dropWhile pyWsChar).map Char.toLower := by
    intro m
    induction m with
    | nil => rfl
    | cons a t ih =>
      by_cases h : pyWsChar a
      · simp [List.dropWhile, h, pyWsChar_toLower, ih]
      · simp [List.dropWhile, h, pyWsChar_toLower]
  simp only [stripList, hdw]
  rw [← List.map_reverse, hdw, List.map_reverse]

theorem pyStrip_pyStrip (s : String) : pyStrip (pyStrip s) = pyStrip s := by
  simp [pyStrip, stripList_stripList]

theorem pyLower_pyLower (s : String) : pyLower (pyLower s) = pyLower s := by
  simp only [pyLower]
  congr 1
  simp [char_toLower_toLower]

theorem pyStrip_pyLower (s : String) : pyStrip (pyLower s) = pyLower (pyStrip s) := by
  simp [pyStrip, pyLower, stripList_map_toLower]

/-- Stability of the rcpt normalisation `lower ∘ strip` under re-normalisation. -/
theorem normEmail_stable (s : String) :
    pyLower (pyStrip (pyLower (pyStrip s))) = pyLower (pyStrip s) := by
  rw [pyStrip_pyLower, pyStrip_pyStrip, pyLower_pyLower]

/-! ## Outcome Store (`job_outcomes` table) and per-job outcome counters

Embeds `db_get_outcome` / `db_set_outcome` (shiva_app.py:891-924),
`_push_outcome_bucket` (7972-7985) and `_apply_outcome_to_job` (7988-8032).
The SQLite table is a row list; `INSERT .. ON CONFLICT(job_id, rcpt) DO
UPDATE` updates the first row with the key or appends. -/

structure OutcomeRow where
  jobId : String
  rcpt : String
  status : String
  updatedAt : Nat
deriving Repr, DecidableEq

abbrev OutcomeStore := List OutcomeRow

def storeUpsert : OutcomeStore → String → String → String → Nat → OutcomeStore
  | [], jid, r, st, t => [⟨jid, r, st, t⟩]
  | row :: rest, jid, r, st, t =>
    if row.jobId = jid ∧ row.rcpt = r then
      ⟨jid, r, st, t⟩ :: rest
    else
      row :: storeUpsert rest jid r st t

def storeLookup (store : OutcomeStore) (jid r : String) : Option OutcomeRow :=
  store.find? (fun row => row.jobId == jid && row.rcpt == r)

/-- `db_get_outcome`: empty (stripped) job id or rcpt, or an empty stored
status, yields `None`. -/
def dbGetOutcome (store : OutcomeStore) (jobId rcpt : String) : Option String :=
  let jid := pyStrip jobId
  let r := pyLower (pyStrip rcpt)
  if jid = "" ∨ r = "" then none
  else
    match storeLookup store jid r with
    | some row => if row.status = "" then none else some row.status
    | none => none

/-- `db_set_outcome`: refuses empty keys/status, otherwise upserts. -/
def dbSetOutcome (store : OutcomeStore) (jobId rcpt status : String) (t : Nat) : OutcomeStore :=
  let jid := pyStrip jobId
  let r := pyLower (pyStrip rcpt)
  let st := pyLower (pyStrip status)
  if jid = "" ∨ r = "" ∨ st = "" then store else storeUpsert store jid r st t

/-- One bucket of the per-minute outcome time series. -/
structure OutcomeBucket where
  tMin : Nat
  delivered : Nat
  bounced : Nat
  deferred : Nat
  complained : Nat
deriving Repr, DecidableEq

def bucketInc (b : OutcomeBucket) (kind : String) : OutcomeBucket :=
  -- `if kind in b: b[kind] += 1`; the bucket's keys are t_min + the four
  -- outcome kinds, so any other kind leaves the bucket unchanged.
  if kind = "delivered" then { b with delivered := b.delivered + 1 }
  else if kind = "bounced" then { b with bounced := b.bounced + 1 }
  else if kind = "deferred" then { b with deferred := b.deferred + 1 }
  else if kind = "complained" then { b with complained := b.complained + 1 }
  else if kind = "t_min" then { b with tMin := b.tMin + 1 }
  else b

def updateLast (l : List OutcomeBucket) (f : OutcomeBucket → OutcomeBucket) : List OutcomeBucket :=
  match l with
  | [] => []
  | [b] => [f b]
  | b :: rest => b :: updateLast rest f

/-- `_push_outcome_bucket`: reuse the current-minute bucket or append a fresh
one (trimming 180 → last 140), then bump the kind's count in place. -/
def pushOutcomeBucket (nowMin : Nat) (kind : String) (series : List OutcomeBucket) :
    List OutcomeBucket :=
  match series.getLast? with
  | some b =>
    if b.tMin = nowMin then
      updateLast series (fun bb => bucketInc bb kind)
    else
      let s1 := series ++ [⟨nowMin, 0, 0, 0, 0⟩]
      let s2 := if s1.length > 180 then s1.drop (s1.length - 140) else s1
      updateLast s2 (fun bb => bucketInc bb kind)
  | none =>
    updateLast [(⟨nowMin, 0, 0, 0, 0⟩ : OutcomeBucket)] (fun bb => bucketInc bb kind)

/-- The slice of `SendJob` that `_apply_outcome_to_job` reads and writes. -/
structure JobOutcomeState where
  id : String
  delivered : Int
  bounced : Int
  deferred : Int
  complained : Int
  outcomeSeries : List OutcomeBucket
  accountingLastTs : Nat
deriving Repr, DecidableEq

def jobDec (j : JobOutcomeState) (st : String) : JobOutcomeState :=
  if st = "delivered" then { j with delivered := max 0 (j.delivered - 1) }
  else if st = "bounced" then { j with bounced := max 0 (j.bounced - 1) }
  else if st = "deferred" then { j with deferred := max 0 (j.deferred - 1) }
  else if st = "complained" then { j with complained := max 0 (j.complained - 1) }
  else j

def jobInc (j : JobOutcomeState) (st : String) : JobOutcomeState :=
  if st = "delivered" then { j with delivered := j.delivered + 1 }
  else if st = "bounced" then { j with bounced := j.bounced + 1 }
  else if st = "deferred" then { j with deferred := j.deferred + 1 }
  else if st = "complained" then { j with complained := j.complained + 1 }
  else j

def finalKinds : List String := ["delivered", "bounced", "complained"]

def outcomeKinds : List String := ["delivered", "bounced", "deferred", "complained"]

/-- `_apply_outcome_to_job` (shiva_app.py:7988-8032); `now` abstracts the
wall clock (seconds), `now / 60` is the series bucket key, and `now` also
stands in for the `now_iso()` timestamp. -/
def applyOutcomeToJob (now : Nat) (job : JobOutcomeState) (store : OutcomeStore)
    (rcpt kind : String) : JobOutcomeState × OutcomeStore :=
  let r := pyLower (pyStrip rcpt)
  let k := pyLower (pyStrip kind)
  if r = "" ∨ k ∉ outcomeKinds then (job, store)
  else
    let prev := dbGetOutcome store job.id r
    if (prev = some "delivered" ∨ prev = some "bounced" ∨ prev = some "complained")
        ∧ k = "deferred" then
      (job, store)
    else if prev = some k then
      ({ job with
          outcomeSeries := pushOutcomeBucket (now / 60) k job.outcomeSeries
          accountingLastTs := now }, store)
    else
      let j1 := match prev with
        | some p => jobDec job p
        | none => job
      let j2 := jobInc j1 k
      let store' := dbSetOutcome store job.id r k now
      ({ j2 with
          outcomeSeries := pushOutcomeBucket (now / 60) k j2.outcomeSeries
          accountingLastTs := now }, store')

/-- One reconciled accounting event, as seen by `_apply_outcome_to_job`. -/
structure AcctOutcomeEvent where
  now : Nat
  rcpt : String
  kind : String
deriving Repr, DecidableEq

def applyOutcomeEvents (evs : List AcctOutcomeEvent) (job : JobOutcomeState)
    (store : OutcomeStore) : JobOutcomeState × OutcomeStore :=
  match evs with
  | [] => (job, store)
  | e :: rest =>
    let (j', s') := applyOutcomeToJob e.now job store e.rcpt e.kind
    applyOutcomeEvents rest j' s'

/-- A freshly created job: all four outcome counters start at 0. -/
def mkJobOutcomeState (id : String) : JobOutcomeState :=
  { id := id, delivered := 0, bounced := 0, deferred := 0, complained := 0
    outcomeSeries := [], accountingLastTs := 0 }

/-! ### Store lemmas -/

def rowCount (store : OutcomeStore) (j r : String) : Nat :=
  (store.filter (fun row => decide (row.jobId = j ∧ row.rcpt = r))).length

/-- The `(job_id, rcpt)` primary key: at most one row per key. -/
def AtMostOneRow (store : OutcomeStore) : Prop := ∀ j r, rowCount store j r ≤ 1

theorem rowCount_cons (row : OutcomeRow) (rest : OutcomeStore) (j r : String) :
    rowCount (row :: rest) j r
      = (if row.jobId = j ∧ row.rcpt = r then 1 else 0) + rowCount rest j r := by
  simp only [rowCount, List.filter_cons]
  split
  · next hc =>
    rw [if_pos (by simpa using hc)]
    simp [Nat.add_comm]
  · next hc =>
    rw [if_neg (by simpa using hc)]
    simp

theorem rowCount_upsert_ne (store : OutcomeStore) (jid r st : String) (t : Nat)
    (j r2 : String) (h : ¬(jid = j ∧ r = r2)) :
    rowCount (storeUpsert store jid r st t) j r2 = rowCount store j r2 := by
  induction store with
  | nil =>
    rw [show storeUpsert [] jid r st t = [⟨jid, r, st, t⟩] from rfl, rowCount_cons]
    simp only [rowCount, List.filter_nil, List.length_nil, Nat.add_zero]
    rw [if_neg (by simpa using h)]
  | cons row rest ih =>
    by_cases hk : row.jobId = jid ∧ row.rcpt = r
    · simp only [storeUpsert, if_pos hk]
      rw [rowCount_cons, rowCount_cons]
      have : ((⟨jid, r, st, t⟩ : OutcomeRow).jobId = j ∧ (⟨jid, r, st, t⟩ : OutcomeRow).rcpt = r2)
          ↔ (row.jobId = j ∧ row.rcpt = r2) := by
        simp [hk.1, hk.2]
      rw [if_congr this rfl rfl]
    · simp only [storeUpsert, if_neg hk]
      rw [rowCount_cons, rowCount_cons, ih]

theorem rowCount_upsert_self (store : OutcomeStore) (jid r st : String) (t : Nat) :
    rowCount (storeUpsert store jid r st t) jid r ≤ max 1 (rowCount store jid r) := by
  induction store with
  | nil => simp [storeUpsert, rowCount_cons, rowCount]
  | cons row rest ih =>
    by_cases hk : row.jobId = jid ∧ row.rcpt = r
    · simp only [storeUpsert, if_pos hk]
      rw [rowCount_cons, rowCount_cons]
      have hnew : ((⟨jid, r, st, t⟩ : OutcomeRow).jobId = jid
          ∧ (⟨jid, r, st, t⟩ : OutcomeRow).rcpt = r) := by simp
      rw [if_pos hnew, if_pos hk]
      omega
    · simp only [storeUpsert, if_neg hk]
      rw [rowCount_cons, rowCount_cons, if_neg hk]
      omega

theorem atMostOne_upsert (store : OutcomeStore) (jid r st : String) (t : Nat)
    (h : AtMostOneRow store) : AtMostOneRow (storeUpsert store jid r st t) := by
  intro j r2
  by_cases hk : jid = j ∧ r = r2
  · rcases hk with ⟨rfl, rfl⟩
    have := rowCount_upsert_self store jid r st t
    have h2 := h jid r
    omega
  · rw [rowCount_upsert_ne store jid r st t j r2 hk]
    exact h j r2

theorem atMostOne_dbSet (store : OutcomeStore) (jid r st : String) (t : Nat)
    (h : AtMostOneRow store) : AtMostOneRow (dbSetOutcome store jid r st t) := by
  simp only [dbSetOutcome]
  split
  · exact h
  · exact atMostOne_upsert _ _ _ _ _ h

theorem atMostOne_apply (now : Nat) (job : JobOutcomeState) (store : OutcomeStore)
    (rcpt kind : String) (h : AtMostOneRow store) :
    AtMostOneRow (applyOutcomeToJob now job store rcpt kind).2 := by
  simp only [applyOutcomeToJob]
  split
  · exact h
  · split
    · exact h
    · split
      · exact h
      · exact atMostOne_dbSet _ _ _ _ _ h

theorem atMostOne_applyEvents (evs : List AcctOutcomeEvent) (job : JobOutcomeState)
    (store : OutcomeStore) (h : AtMostOneRow store) :
    AtMostOneRow (applyOutcomeEvents evs job store).2 := by
  induction evs generalizing job store with
  | nil => exact h
  | cons e rest ih =>
    simp only [applyOutcomeEvents]
    exact ih _ _ (atMostOne_apply e.now job store e.rcpt e.kind h)

theorem storeLookup_upsert (store : OutcomeStore) (jid r st : String) (t : Nat) :
    storeLookup (storeUpsert store jid r st t) jid r = some ⟨jid, r, st, t⟩ := by
  induction store with
  | nil => simp [storeUpsert, storeLookup, List.find?]
  | cons row rest ih =>
    by_cases hk : row.jobId = jid ∧ row.rcpt = r
    · simp [storeUpsert, if_pos hk, storeLookup, List.find?]
    · have hrow : (row.jobId == jid && row.rcpt == r) = false := by
        rcases Decidable.not_and_iff_or_not.mp hk with h1 | h1 <;> simp [h1]
      simp only [storeUpsert, if_neg hk, storeLookup, List.find?, hrow]
      exact ih

/-- Reading back right after `db_set_outcome` with already-normalised inputs. -/
theorem dbGet_dbSet (store : OutcomeStore) (jobId rcpt status : String) (t : Nat)
    (hjid : pyStrip jobId ≠ "") (hr : pyLower (pyStrip rcpt) ≠ "")
    (hst : pyLower (pyStrip status) ≠ "") :
    dbGetOutcome (dbSetOutcome store jobId rcpt status t) jobId rcpt
      = some (pyLower (pyStrip status)) := by
  unfold dbSetOutcome dbGetOutcome
  simp only [if_neg (by tauto : ¬(pyStrip jobId = "" ∨ pyLower (pyStrip rcpt) = ""
    ∨ pyLower (pyStrip status) = "")), if_neg (by tauto : ¬(pyStrip jobId = ""
    ∨ pyLower (pyStrip rcpt) = ""))]
  rw [storeLookup_upsert]
  simp [hst]

/-- `db_get_outcome` is invariant under pre-normalising the rcpt. -/
theorem dbGet_norm (store : OutcomeStore) (jid rcpt : String) :
    dbGetOutcome store jid (pyLower (pyStrip rcpt)) = dbGetOutcome store jid rcpt := by
  unfold dbGetOutcome
  rw [normEmail_stable]

theorem dbGet_some_keys {store : OutcomeStore} {jid rcpt f : String}
    (h : dbGetOutcome store jid rcpt = some f) :
    pyStrip jid ≠ "" ∧ pyLower (pyStrip rcpt) ≠ "" := by
  by_cases hc : pyStrip jid = "" ∨ pyLower (pyStrip rcpt) = ""
  · rw [dbGetOutcome, if_pos hc] at h
    exact absurd h (by simp)
  · exact not_or.mp hc

/-! ### Counter non-negativity -/

def countersNonneg (j : JobOutcomeState) : Prop :=
  0 ≤ j.delivered ∧ 0 ≤ j.bounced ∧ 0 ≤ j.deferred ∧ 0 ≤ j.complained

theorem countersNonneg_jobDec (j : JobOutcomeState) (st : String) (h : countersNonneg j) :
    countersNonneg (jobDec j st) := by
  obtain ⟨h1, h2, h3, h4⟩ := h
  unfold jobDec
  split_ifs <;> refine ⟨?_, ?_, ?_, ?_⟩ <;> dsimp only <;> omega

theorem countersNonneg_jobInc (j : JobOutcomeState) (st : String) (h : countersNonneg j) :
    countersNonneg (jobInc j st) := by
  obtain ⟨h1, h2, h3, h4⟩ := h
  unfold jobInc
  split_ifs <;> refine ⟨?_, ?_, ?_, ?_⟩ <;> dsimp only <;> omega

theorem countersNonneg_apply (now : Nat) (job : JobOutcomeState) (store : OutcomeStore)
    (rcpt kind : String) (h : countersNonneg job) :
    countersNonneg (applyOutcomeToJob now job store rcpt kind).1 := by
  simp only [applyOutcomeToJob]
  split
  · exact h
  · split
    · exact h
    · split
      · exact h
      · split
        · next p _ =>
          have := countersNonneg_jobInc (jobDec job p) (pyLower (pyStrip kind))
            (countersNonneg_jobDec job p h)
          exact this
        · exact countersNonneg_jobInc job (pyLower (pyStrip kind)) h

theorem countersNonneg_applyEvents (evs : List AcctOutcomeEvent) (job : JobOutcomeState)
    (store : OutcomeStore) (h : countersNonneg job) :
    countersNonneg (applyOutcomeEvents evs job store).1 := by
  induction evs generalizing job store with
  | nil => exact h
  | cons e rest ih =>
    simp only [applyOutcomeEvents]
    exact ih _ _ (countersNonneg_apply e.now job store e.rcpt e.kind h)

/-! ### Branch-evaluation lemmas for `_apply_outcome_to_job` -/

theorem jobDec_id (j : JobOutcomeState) (st : String) : (jobDec j st).id = j.id := by
  unfold jobDec
  split_ifs <;> rfl

theorem jobInc_id (j : JobOutcomeState) (st : String) : (jobInc j st).id = j.id := by
  unfold jobInc
  split_ifs <;> rfl

theorem apply_eval_guard0 (now : Nat) (job : JobOutcomeState) (store : OutcomeStore)
    (rcpt kind : String)
    (h : pyLower (pyStrip rcpt) = "" ∨ pyLower (pyStrip kind) ∉ outcomeKinds) :
    applyOutcomeToJob now job store rcpt kind = (job, store) := by
  simp only [applyOutcomeToJob]
  rw [if_pos h]

theorem apply_eval_dominated (now : Nat) (job : JobOutcomeState) (store : OutcomeStore)
    (rcpt kind : String) (hr : pyLower (pyStrip rcpt) ≠ "")
    (hk : pyLower (pyStrip kind) = "deferred")
    (hdom : dbGetOutcome store job.id rcpt = some "delivered"
      ∨ dbGetOutcome store job.id rcpt = some "bounced"
      ∨ dbGetOutcome store job.id rcpt = some "complained") :
    applyOutcomeToJob now job store rcpt kind = (job, store) := by
  simp only [applyOutcomeToJob]
  rw [dbGet_norm, hk]
  rw [if_neg (by simp [hr, outcomeKinds])]
  rw [if_pos ⟨hdom, rfl⟩]

theorem apply_eval_repeat (now : Nat) (job : JobOutcomeState) (store : OutcomeStore)
    (rcpt kind : String) (hr : pyLower (pyStrip rcpt) ≠ "")
    (hkm : pyLower (pyStrip kind) ∈ outcomeKinds)
    (hprev : dbGetOutcome store job.id rcpt = some (pyLower (pyStrip kind))) :
    applyOutcomeToJob now job store rcpt kind =
      ({ job with
          outcomeSeries := pushOutcomeBucket (now / 60) (pyLower (pyStrip kind)) job.outcomeSeries
          accountingLastTs := now }, store) := by
  simp only [applyOutcomeToJob]
  rw [dbGet_norm, hprev]
  rw [if_neg (by simp [hr, hkm])]
  rw [if_neg (by
    rintro ⟨hfin, hdef⟩
    rw [hdef] at hfin
    rcases hfin with h1 | h1 | h1 <;> simp at h1)]
  rw [if_pos rfl]

theorem apply_eval_promote (now : Nat) (job : JobOutcomeState) (store : OutcomeStore)
    (rcpt kind : String) (hr : pyLower (pyStrip rcpt) ≠ "")
    (hkm : pyLower (pyStrip kind) ∈ outcomeKinds)
    (hnrep : dbGetOutcome store job.id rcpt ≠ some (pyLower (pyStrip kind)))
    (hnodom : ¬((dbGetOutcome store job.id rcpt = some "delivered"
      ∨ dbGetOutcome store job.id rcpt = some "bounced"
      ∨ dbGetOutcome store job.id rcpt = some "complained")
      ∧ pyLower (pyStrip kind) = "deferred")) :
    applyOutcomeToJob now job store rcpt kind =
      (let j1 := match dbGetOutcome store job.id rcpt with
        | some p => jobDec job p
        | none => job
      let j2 := jobInc j1 (pyLower (pyStrip kind))
      ({ j2 with
          outcomeSeries := pushOutcomeBucket (now / 60) (pyLower (pyStrip kind)) j2.outcomeSeries
          accountingLastTs := now },
        dbSetOutcome store job.id (pyLower (pyStrip rcpt)) (pyLower (pyStrip kind)) now)) := by
  simp only [applyOutcomeToJob]
  rw [dbGet_norm]
  rw [if_neg (by simp [hr, hkm])]
  rw [if_neg hnodom]
  rw [if_neg hnrep]

/-! ## Claim theorems on the Outcome Store -/

/-- C10: for every job and any sequence of reconciled accounting events, the
four per-job outcome counters never become negative: promotion decrements the
previous status's counter with a floor of 0 (`max 0 (· - 1)` in `jobDec`)
before incrementing the new one, so starting from a fresh job (all counters 0)
every reachable counter value is ≥ 0, whatever the initial store contents. -/
theorem C10_outcome_counters_never_negative (evs : List AcctOutcomeEvent) (id : String)
    (store : OutcomeStore) :
    0 ≤ (applyOutcomeEvents evs (mkJobOutcomeState id) store).1.delivered
    ∧ 0 ≤ (applyOutcomeEvents evs (mkJobOutcomeState id) store).1.bounced
    ∧ 0 ≤ (applyOutcomeEvents evs (mkJobOutcomeState id) store).1.deferred
    ∧ 0 ≤ (applyOutcomeEvents evs (mkJobOutcomeState id) store).1.complained :=
  countersNonneg_applyEvents evs (mkJobOutcomeState id) store
    ⟨le_refl 0, le_refl 0, le_refl 0, le_refl 0⟩

/-- C1: (1) processing any sequence of accounting events preserves the
at-most-one-row-per-(job, recipient) invariant of the Outcome Store; (2) a
`deferred` event arriving when the stored status is a final
(delivered/bounced/complained) leaves the job and the store — hence the row
and the four counters — entirely unchanged; (3) a final kind distinct from the
stored final overwrites the stored status; (4) a repeat of the same stored
kind leaves the store unchanged. -/
theorem C1_outcome_store_promotion :
    (∀ (evs : List AcctOutcomeEvent) (job : JobOutcomeState) (store : OutcomeStore),
      AtMostOneRow store → AtMostOneRow (applyOutcomeEvents evs job store).2)
    ∧ (∀ (now : Nat) (job : JobOutcomeState) (store : OutcomeStore) (rcpt f : String),
      dbGetOutcome store job.id rcpt = some f → f ∈ finalKinds →
      applyOutcomeToJob now job store rcpt "deferred" = (job, store))
    ∧ (∀ (now : Nat) (job : JobOutcomeState) (store : OutcomeStore) (rcpt f k : String),
      dbGetOutcome store job.id rcpt = some f → f ∈ finalKinds → k ∈ finalKinds → k ≠ f →
      dbGetOutcome (applyOutcomeToJob now job store rcpt k).2 job.id rcpt = some k)
    ∧ (∀ (now : Nat) (job : JobOutcomeState) (store : OutcomeStore) (rcpt k : String),
      dbGetOutcome store job.id rcpt = some k → k ∈ outcomeKinds →
      (applyOutcomeToJob now job store rcpt k).2 = store) := by
  refine ⟨atMostOne_applyEvents, ?_, ?_, ?_⟩
  · intro now job store rcpt f hget hf
    have hr := (dbGet_some_keys hget).2
    have hfin : dbGetOutcome store job.id rcpt = some "delivered"
        ∨ dbGetOutcome store job.id rcpt = some "bounced"
        ∨ dbGetOutcome store job.id rcpt = some "complained" := by
      simp only [finalKinds, List.mem_cons, List.mem_singleton] at hf
      rcases hf with rfl | rfl | hf
      · exact Or.inl hget
      · exact Or.inr (Or.inl hget)
      · simp at hf
        rw [hf] at hget
        exact Or.inr (Or.inr hget)
    exact apply_eval_dominated now job store rcpt "deferred" hr (by decide) hfin
  · intro now job store rcpt f k hget hf hk hkf
    obtain ⟨hid, hr⟩ := dbGet_some_keys hget
    simp only [finalKinds, List.mem_cons, List.mem_singleton] at hk
    have hk3 : k = "delivered" ∨ k = "bounced" ∨ k = "complained" := by
      rcases hk with rfl | rfl | hk
      · exact Or.inl rfl
      · exact Or.inr (Or.inl rfl)
      · simp at hk
        exact Or.inr (Or.inr hk)
    have hmem : k ∈ outcomeKinds := by
      rcases hk3 with rfl | rfl | rfl <;> decide
    have hknorm : pyLower (pyStrip k) = k := by
      rcases hk3 with rfl | rfl | rfl <;> decide
    have hne : dbGetOutcome store job.id rcpt ≠ some (pyLower (pyStrip k)) := by
      rw [hknorm, hget]
      simp
      exact fun h => hkf h.symm
    have hnodom : ¬((dbGetOutcome store job.id rcpt = some "delivered"
        ∨ dbGetOutcome store job.id rcpt = some "bounced"
        ∨ dbGetOutcome store job.id rcpt = some "complained")
        ∧ pyLower (pyStrip k) = "deferred") := by
      rintro ⟨-, hdef⟩
      rw [hknorm] at hdef
      rcases hk3 with rfl | rfl | rfl <;> simp at hdef
    rw [apply_eval_promote now job store rcpt k hr (by rw [hknorm]; exact hmem) hne hnodom]
    have hkeep : pyLower (pyStrip k) ≠ "" := by
      rcases hk3 with rfl | rfl | rfl <;> decide
    have := dbGet_dbSet store job.id (pyLower (pyStrip rcpt)) k now hid
      (by rw [normEmail_stable]; exact hr) hkeep
    simpa [dbGet_norm, hknorm] using this
  · intro now job store rcpt k hget hk
    obtain ⟨hid, hr⟩ := dbGet_some_keys hget
    simp only [outcomeKinds, List.mem_cons, List.mem_singleton] at hk
    have hk4 : k = "delivered" ∨ k = "bounced" ∨ k = "deferred" ∨ k = "complained" := by
      rcases hk with rfl | rfl | rfl | hk
      · exact Or.inl rfl
      · exact Or.inr (Or.inl rfl)
      · exact Or.inr (Or.inr (Or.inl rfl))
      · simp at hk
        exact Or.inr (Or.inr (Or.inr hk))
    have hknorm : pyLower (pyStrip k) = k := by
      rcases hk4 with rfl | rfl | rfl | rfl <;> decide
    have hmem : pyLower (pyStrip k) ∈ outcomeKinds := by
      rcases hk4 with rfl | rfl | rfl | rfl <;> decide
    rw [apply_eval_repeat now job store rcpt k hr hmem (by rw [hknorm]; exact hget)]

/-- Witness for `C1_outcome_store_promotion` at concrete inputs: a store
holding a delivered row for `(job1, a@b.com)`; a deferred event leaves it
unchanged, a bounced event overwrites it, a repeated delivered event leaves
the store unchanged, and the row-uniqueness invariant holds after processing
an event sequence from the empty store. -/
theorem C1_outcome_store_promotion_witness :
    rowCount (applyOutcomeEvents [⟨60, "a@b.com", "delivered"⟩, ⟨120, "a@b.com", "bounced"⟩]
        (mkJobOutcomeState "job1") []).2 "job1" "a@b.com" ≤ 1
    ∧ applyOutcomeToJob 60 (mkJobOutcomeState "job1")
        [⟨"job1", "a@b.com", "delivered", 0⟩] "a@b.com" "deferred"
        = (mkJobOutcomeState "job1", [⟨"job1", "a@b.com", "delivered", 0⟩])
    ∧ dbGetOutcome (applyOutcomeToJob 60 (mkJobOutcomeState "job1")
        [⟨"job1", "a@b.com", "delivered", 0⟩] "a@b.com" "bounced").2
        (mkJobOutcomeState "job1").id "a@b.com" = some "bounced"
    ∧ (applyOutcomeToJob 60 (mkJobOutcomeState "job1")
        [⟨"job1", "a@b.com", "delivered", 0⟩] "a@b.com" "delivered").2
        = [⟨"job1", "a@b.com", "delivered", 0⟩] := by
  refine ⟨C1_outcome_store_promotion.1
      [⟨60, "a@b.com", "delivered"⟩, ⟨120, "a@b.com", "bounced"⟩]
      (mkJobOutcomeState "job1") [] (fun j r => by simp [rowCount]) "job1" "a@b.com",
    C1_outcome_store_promotion.2.1 60 (mkJobOutcomeState "job1") _ "a@b.com" "delivered"
      (by decide) (by decide),
    C1_outcome_store_promotion.2.2.1 60 (mkJobOutcomeState "job1") _ "a@b.com"
      "delivered" "bounced" (by decide) (by decide) (by decide) (by decide),
    C1_outcome_store_promotion.2.2.2 60 (mkJobOutcomeState "job1") _ "a@b.com"
      "delivered" (by decide) (by decide)⟩

/-- Applying the same `(rcpt, kind)` accounting event a second time (at a
possibly different arrival time). -/
def applyOutcomeTwice (now1 now2 : Nat) (job : JobOutcomeState) (store : OutcomeStore)
    (rcpt kind : String) : JobOutcomeState × OutcomeStore :=
  let p := applyOutcomeToJob now1 job store rcpt kind
  applyOutcomeToJob now2 p.1 p.2 rcpt kind

theorem counters_of_record (j : JobOutcomeState) (s : List OutcomeBucket) (t : Nat) :
    ({ j with outcomeSeries := s, accountingLastTs := t } : JobOutcomeState).delivered
        = j.delivered
    ∧ ({ j with outcomeSeries := s, accountingLastTs := t } : JobOutcomeState).bounced
        = j.bounced
    ∧ ({ j with outcomeSeries := s, accountingLastTs := t } : JobOutcomeState).deferred
        = j.deferred
    ∧ ({ j with outcomeSeries := s, accountingLastTs := t } : JobOutcomeState).complained
        = j.complained :=
  ⟨rfl, rfl, rfl, rfl⟩

/-- C3: applying the same accounting event to the reconciler twice yields the
same Outcome Store state and the same four job counters as applying it once
(the per-minute time series does tick again, which is why the conclusion
speaks of the store and the counters, exactly as the claim does). -/
theorem C3_outcome_event_idempotent (now1 now2 : Nat) (job : JobOutcomeState)
    (store : OutcomeStore) (rcpt k : String)
    (hid : pyStrip job.id ≠ "") (hk : k ∈ outcomeKinds) :
    (applyOutcomeTwice now1 now2 job store rcpt k).2
        = (applyOutcomeToJob now1 job store rcpt k).2
    ∧ (applyOutcomeTwice now1 now2 job store rcpt k).1.delivered
        = (applyOutcomeToJob now1 job store rcpt k).1.delivered
    ∧ (applyOutcomeTwice now1 now2 job store rcpt k).1.bounced
        = (applyOutcomeToJob now1 job store rcpt k).1.bounced
    ∧ (applyOutcomeTwice now1 now2 job store rcpt k).1.deferred
        = (applyOutcomeToJob now1 job store rcpt k).1.deferred
    ∧ (applyOutcomeTwice now1 now2 job store rcpt k).1.complained
        = (applyOutcomeToJob now1 job store rcpt k).1.complained := by
  have hk4 : k = "delivered" ∨ k = "bounced" ∨ k = "deferred" ∨ k = "complained" := by
    simpa [outcomeKinds] using hk
  have hknorm : pyLower (pyStrip k) = k := by
    rcases hk4 with rfl | rfl | rfl | rfl <;> decide
  have hkmem : pyLower (pyStrip k) ∈ outcomeKinds := by rw [hknorm]; exact hk
  have hkne : pyLower (pyStrip k) ≠ "" := by
    rw [hknorm]
    rcases hk4 with rfl | rfl | rfl | rfl <;> decide
  unfold applyOutcomeTwice
  by_cases hre : pyLower (pyStrip rcpt) = ""
  · rw [apply_eval_guard0 now1 job store rcpt k (Or.inl hre),
      apply_eval_guard0 now2 job store rcpt k (Or.inl hre)]
    exact ⟨rfl, rfl, rfl, rfl, rfl⟩
  · -- the second read sees what the first application left behind
    by_cases hdom : (dbGetOutcome store job.id rcpt = some "delivered"
        ∨ dbGetOutcome store job.id rcpt = some "bounced"
        ∨ dbGetOutcome store job.id rcpt = some "complained") ∧ k = "deferred"
    · have hkd : pyLower (pyStrip k) = "deferred" := by rw [hknorm]; exact hdom.2
      rw [apply_eval_dominated now1 job store rcpt k hre hkd hdom.1,
        apply_eval_dominated now2 job store rcpt k hre hkd hdom.1]
      exact ⟨rfl, rfl, rfl, rfl, rfl⟩
    · by_cases hrep : dbGetOutcome store job.id rcpt = some (pyLower (pyStrip k))
      · rw [apply_eval_repeat now1 job store rcpt k hre hkmem hrep]
        have hrep2 : dbGetOutcome store
            ({ job with
                outcomeSeries := pushOutcomeBucket (now1 / 60) (pyLower (pyStrip k))
                  job.outcomeSeries
                accountingLastTs := now1 } : JobOutcomeState).id rcpt
            = some (pyLower (pyStrip k)) := hrep
        rw [apply_eval_repeat now2 _ store rcpt k hre hkmem hrep2]
        exact ⟨rfl, rfl, rfl, rfl, rfl⟩
      · have hnodom : ¬((dbGetOutcome store job.id rcpt = some "delivered"
            ∨ dbGetOutcome store job.id rcpt = some "bounced"
            ∨ dbGetOutcome store job.id rcpt = some "complained")
            ∧ pyLower (pyStrip k) = "deferred") := by
          rw [hknorm]
          exact hdom
        rw [apply_eval_promote now1 job store rcpt k hre hkmem hrep hnodom]
        simp only [hknorm]
        set j1 := (match dbGetOutcome store job.id rcpt with
          | some p => jobDec job p
          | none => job) with hj1
        set j2 := jobInc j1 k with hj2
        have hid2 : ({ j2 with
            outcomeSeries := pushOutcomeBucket (now1 / 60) k j2.outcomeSeries
            accountingLastTs := now1 } : JobOutcomeState).id = job.id := by
          show j2.id = job.id
          rw [hj2, jobInc_id, hj1]
          cases dbGetOutcome store job.id rcpt with
          | none => rfl
          | some p => exact jobDec_id job p
        have hget2 : dbGetOutcome
            (dbSetOutcome store job.id (pyLower (pyStrip rcpt)) k now1)
            ({ j2 with
              outcomeSeries := pushOutcomeBucket (now1 / 60) k j2.outcomeSeries
              accountingLastTs := now1 } : JobOutcomeState).id rcpt
            = some (pyLower (pyStrip k)) := by
          rw [hid2, hknorm]
          have h1 := dbGet_dbSet store job.id (pyLower (pyStrip rcpt)) k now1 hid
            (by rw [normEmail_stable]; exact hre) hkne
          rw [hknorm] at h1
          calc dbGetOutcome (dbSetOutcome store job.id (pyLower (pyStrip rcpt)) k now1)
                job.id rcpt
              = dbGetOutcome (dbSetOutcome store job.id (pyLower (pyStrip rcpt)) k now1)
                job.id (pyLower (pyStrip rcpt)) := (dbGet_norm _ _ _).symm
            _ = some k := h1
        have hstep2 := apply_eval_repeat now2
          ({ j2 with
            outcomeSeries := pushOutcomeBucket (now1 / 60) k j2.outcomeSeries
            accountingLastTs := now1 } : JobOutcomeState)
          (dbSetOutcome store job.id (pyLower (pyStrip rcpt)) k now1)
          rcpt k hre hkmem hget2
        simp only [hknorm] at hstep2
        rw [hstep2]
        exact ⟨rfl, rfl, rfl, rfl, rfl⟩

/-! ## Accounting events and outcome-kind normalisation

An accounting event is a Python dict with string keys; through the parsing
and normalisation paths every value that is ever consulted is a string, so an
event is an insertion-ordered association list with unique keys. -/

abbrev AcctEvent := List (String × String)

/-- `ev.get(k)`. -/
def evGet (ev : AcctEvent) (k : String) : Option String :=
  (ev.find? (fun p => p.1 == k)).map (·.2)

/-- `ev.get(k) or ""` — Python falsiness: `None` and `""` both yield `""`. -/
def evGetD (ev : AcctEvent) (k : String) : String := (evGet ev k).getD ""

/-- First truthy value of a `get(..) or get(..) or ...` chain. -/
def evFirst (ev : AcctEvent) (ks : List String) : String :=
  match ks with
  | [] => ""
  | k :: rest => if evGetD ev k ≠ "" then evGetD ev k else evFirst ev rest

/-- Key normalisation used by `_event_value`:
`str(k).strip().lower().replace("_", "-")`. The pattern and replacement are
single characters, so `str.replace` is a character-wise map. -/
def normKey (k : String) : String :=
  ⟨(pyLower (pyStrip k)).data.map (fun c => if c = '_' then '-' else c)⟩

/-- `_event_value` — defined identically in shiva_app.py:7805-7821 and
pmta_accounting_bridge.py:200-214: exact alias match first, then substring
alias match, both skipping falsy values. -/
def eventValue (ev : AcctEvent) (names : List String) : String :=
  let aliases := (names.filter (fun n => pyStrip n ≠ "")).map normKey
  if aliases.isEmpty then ""
  else
    match ev.find? (fun p => aliases.contains (normKey p.1) && pyStrip p.2 != "") with
    | some p => pyStrip p.2
    | none =>
      match ev.find? (fun p =>
          aliases.any (fun a => pyContains (normKey p.1) a) && pyStrip p.2 != "") with
      | some p => pyStrip p.2
      | none => ""

/-! ### `_normalize_outcome_type` (shiva_app.py:7777-7802) -/

def exactDelivered : List String :=
  ["d", "delivered", "delivery", "success", "accepted", "ok", "sent"]
def exactBounced : List String :=
  ["b", "bounce", "bounced", "hardbounce", "softbounce", "failed", "failure",
   "reject", "rejected", "error"]
def exactDeferred : List String := ["t", "defer", "deferred", "deferral", "transient"]
def exactComplained : List String := ["c", "complaint", "complained", "fbl"]
def deliveredSubs : List String :=
  ["success", "2.0.0", "relayed", "delivered", "accepted", "250 "]
def bouncedSubs : List String :=
  ["bounce", "bounced", "failed", "failure", "reject", "5.",
   " 550", " 551", " 552", " 553", " 554"]
def deferredSubs : List String :=
  ["defer", "deferred", "transient", "4.", " 421", " 450", " 451", " 452"]
def complainedSubs : List String := ["complaint", "fbl", "abuse"]

def shivaNormalizeOutcomeType (v : String) : String :=
  let s0 := pyLower (pyStrip v)
  if s0 = "" then ""
  else
    let s := collapseWs s0
    if s ∈ exactDelivered then "delivered"
    else if s ∈ exactBounced then "bounced"
    else if s ∈ exactDeferred then "deferred"
    else if s ∈ exactComplained then "complained"
    else if deliveredSubs.any (fun x => pyContains s x) then "delivered"
    else if bouncedSubs.any (fun x => pyContains s x) then "bounced"
    else if deferredSubs.any (fun x => pyContains s x) then "deferred"
    else if complainedSubs.any (fun x => pyContains s x) then "complained"
    else s

/-! ### `_normalized_outcome` (pmta_accounting_bridge.py:488-502) -/

def bridgeEvTyp (ev : AcctEvent) : String := pyLower (pyStrip (eventValue ev ["type"]))
def bridgeEvAction (ev : AcctEvent) : String :=
  pyLower (pyStrip (eventValue ev ["dsnAction", "dsn_action"]))
def bridgeEvStatus (ev : AcctEvent) : String :=
  pyLower (pyStrip (eventValue ev ["dsnStatus", "dsn_status"]))
def bridgeEvDiag (ev : AcctEvent) : String :=
  pyLower (pyStrip (eventValue ev ["dsnDiag", "dsn_diag"]))

def bridgeDiagComplaint (ev : AcctEvent) : Bool :=
  ["complaint", "fbl", "feedback loop", "abuse"].any
    (fun x => pyContains (bridgeEvDiag ev) x)

def bridgeNormalizedOutcome (ev : AcctEvent) : String :=
  if bridgeDiagComplaint ev then "complained"
  else if bridgeEvTyp ev = "d" || bridgeEvAction ev = "relayed"
      || pyStartsWith (bridgeEvStatus ev) "2" then "delivered"
  else if bridgeEvTyp ev = "t" || bridgeEvAction ev = "delayed"
      || pyStartsWith (bridgeEvStatus ev) "4" then "deferred"
  else if bridgeEvTyp ev = "b" || bridgeEvAction ev = "failed"
      || pyStartsWith (bridgeEvStatus ev) "5" then "bounced"
  else "unknown"

/-! ### Helpers for reasoning about the normalisers -/

theorem notMem_of_contains {n sub : String} (words : List String)
    (h : pyContains n sub = true)
    (hall : ∀ w ∈ words, pyContains w sub = false) : n ∉ words := by
  intro hmem
  rw [hall n hmem] at h
  exact absurd h (by simp)

theorem pyStartsWith_mono {s p q : String} (h : pyStartsWith s p = true)
    (hq : q.data <+: p.data) : pyStartsWith s q = true := by
  rw [pyStartsWith] at h ⊢
  exact List.isPrefixOf_iff_prefix.mpr (hq.trans (List.isPrefixOf_iff_prefix.mp h))

theorem isPrefixOf_two {a b : Char} {l : List Char}
    (h : List.isPrefixOf [a, b] l = true) : ∃ t, l = a :: b :: t := by
  match l with
  | [] => simp [List.isPrefixOf] at h
  | [x] => simp [List.isPrefixOf] at h
  | x :: y :: t =>
    simp only [List.isPrefixOf, List.isPrefixOf_iff_prefix] at h
    obtain ⟨ha, hb⟩ : a = x ∧ [b] <+: y :: t := by
      simpa using h
    obtain ⟨hb', -⟩ := (List.cons_prefix_cons).mp hb
    exact ⟨t, by rw [ha, hb']⟩

theorem pyStartsWith_head_ne {s : String} {a b c : Char}
    (h : pyStartsWith s ⟨[a, b]⟩ = true) (hne : c ≠ a) :
    pyStartsWith s ⟨[c]⟩ = false := by
  rw [pyStartsWith] at h ⊢
  obtain ⟨t, ht⟩ := isPrefixOf_two h
  rw [ht]
  simp [List.isPrefixOf, hne]

/-- Witness for `C3_outcome_event_idempotent`: a concrete bounced event for a
fresh job applied twice. -/
theorem C3_outcome_event_idempotent_witness :
    (applyOutcomeTwice 60 120 (mkJobOutcomeState "job1") [] "a@b.com" "bounced").2
        = (applyOutcomeToJob 60 (mkJobOutcomeState "job1") [] "a@b.com" "bounced").2
    ∧ (applyOutcomeTwice 60 120 (mkJobOutcomeState "job1") [] "a@b.com" "bounced").1.bounced
        = (applyOutcomeToJob 60 (mkJobOutcomeState "job1") [] "a@b.com" "bounced").1.bounced :=
  ⟨(C3_outcome_event_idempotent 60 120 (mkJobOutcomeState "job1") [] "a@b.com" "bounced"
      (by decide) (by decide)).1,
    (C3_outcome_event_idempotent 60 120 (mkJobOutcomeState "job1") [] "a@b.com" "bounced"
      (by decide) (by decide)).2.2.1⟩

/-- C5 counterexample: shiva's `_normalize_outcome_type` tests containment of
the literal `"2.0.0"`, not the prefix `"2."`, so the enhanced status `"2.1.5"`
is returned unrecognised instead of mapping to delivered; and because the
bounced containment row (which includes `"5."`) is tested before the deferred
row, `"4.5.1"` — which starts with `"4."` — maps to bounced, not deferred. -/
theorem C5_normalization_counterexample :
    shivaNormalizeOutcomeType "2.1.5" = "2.1.5"
    ∧ shivaNormalizeOutcomeType "2.1.5" ≠ "delivered"
    ∧ shivaNormalizeOutcomeType "4.5.1" = "bounced"
    ∧ shivaNormalizeOutcomeType "4.5.1" ≠ "deferred" := by decide

/-- C5 as amended: shiva's text normaliser maps the single-letter codes
d/b/t/c to delivered/bounced/deferred/complained.  The bridge's event-level
normaliser has no complained branch for the type letter: it maps type `d`
(or action `relayed`, or a status starting `2`) to delivered, type `t` (or
action `delayed`, or `4`) to deferred, type `b` (or action `failed`, or `5`)
to bounced, derives complained only from a complaint/fbl/feedback-loop/abuse
diagnostic (checked before everything else), and an event with none of these
signals — in particular one whose only signal is type `c` — normalises to
`unknown`.  The prefix rules are `2.`/`4.`/`5.` → delivered/deferred/bounced.
shiva's text-level normalisation instead uses substring rules: `"2.0.0"`
(with the other delivered markers) → delivered, then `"5."` → bounced, then
`"4."` → deferred, then complaint/fbl/abuse → complained, in that order of
precedence. -/
theorem C5_normalization_amended :
    (shivaNormalizeOutcomeType "d" = "delivered"
      ∧ shivaNormalizeOutcomeType "b" = "bounced"
      ∧ shivaNormalizeOutcomeType "t" = "deferred"
      ∧ shivaNormalizeOutcomeType "c" = "complained")
    ∧ (∀ ev : AcctEvent, bridgeDiagComplaint ev = false → bridgeEvTyp ev = "d" →
        bridgeNormalizedOutcome ev = "delivered")
    ∧ (∀ ev : AcctEvent, bridgeDiagComplaint ev = false → bridgeEvTyp ev = "t" →
        bridgeEvAction ev ≠ "relayed" → pyStartsWith (bridgeEvStatus ev) "2" = false →
        bridgeNormalizedOutcome ev = "deferred")
    ∧ (∀ ev : AcctEvent, bridgeDiagComplaint ev = false → bridgeEvTyp ev = "b" →
        bridgeEvAction ev ≠ "relayed" → bridgeEvAction ev ≠ "delayed" →
        pyStartsWith (bridgeEvStatus ev) "2" = false →
        pyStartsWith (bridgeEvStatus ev) "4" = false →
        bridgeNormalizedOutcome ev = "bounced")
    ∧ (∀ ev : AcctEvent, bridgeDiagComplaint ev = false → bridgeEvTyp ev ≠ "d" →
        bridgeEvTyp ev ≠ "t" → bridgeEvTyp ev ≠ "b" →
        bridgeEvAction ev ≠ "relayed" → bridgeEvAction ev ≠ "delayed" →
        bridgeEvAction ev ≠ "failed" →
        pyStartsWith (bridgeEvStatus ev) "2" = false →
        pyStartsWith (bridgeEvStatus ev) "4" = false →
        pyStartsWith (bridgeEvStatus ev) "5" = false →
        bridgeNormalizedOutcome ev = "unknown")
    ∧ (∀ ev : AcctEvent, bridgeDiagComplaint ev = false →
        pyStartsWith (bridgeEvStatus ev) "2." = true →
        bridgeNormalizedOutcome ev = "delivered")
    ∧ (∀ ev : AcctEvent, bridgeDiagComplaint ev = false →
        bridgeEvAction ev = "relayed" → bridgeNormalizedOutcome ev = "delivered")
    ∧ (∀ ev : AcctEvent, bridgeDiagComplaint ev = false → bridgeEvTyp ev ≠ "d" →
        bridgeEvAction ev ≠ "relayed" → pyStartsWith (bridgeEvStatus ev) "4." = true →
        bridgeNormalizedOutcome ev = "deferred")
    ∧ (∀ ev : AcctEvent, bridgeDiagComplaint ev = false → bridgeEvTyp ev ≠ "d" →
        bridgeEvTyp ev ≠ "t" → bridgeEvAction ev ≠ "relayed" → bridgeEvAction ev ≠ "delayed" →
        pyStartsWith (bridgeEvStatus ev) "5." = true →
        bridgeNormalizedOutcome ev = "bounced")
    ∧ (∀ ev : AcctEvent, bridgeDiagComplaint ev = true →
        bridgeNormalizedOutcome ev = "complained")
    ∧ (∀ s : String, pyContains (collapseWs (pyLower (pyStrip s))) "2.0.0" = true →
        shivaNormalizeOutcomeType s = "delivered")
    ∧ (∀ s : String,
        deliveredSubs.any (fun x => pyContains (collapseWs (pyLower (pyStrip s))) x) = false →
        pyContains (collapseWs (pyLower (pyStrip s))) "5." = true →
        shivaNormalizeOutcomeType s = "bounced")
    ∧ (∀ s : String,
        deliveredSubs.any (fun x => pyContains (collapseWs (pyLower (pyStrip s))) x) = false →
        bouncedSubs.any (fun x => pyContains (collapseWs (pyLower (pyStrip s))) x) = false →
        pyContains (collapseWs (pyLower (pyStrip s))) "4." = true →
        shivaNormalizeOutcomeType s = "deferred") := by
  refine ⟨by decide, ?_, ?_, ?_, ?_, ?_, ?_, ?_, ?_, ?_, ?_, ?_, ?_⟩
  · intro ev hdiag htyp
    simp [bridgeNormalizedOutcome, hdiag, htyp]
  · intro ev hdiag htyp hact h2
    simp [bridgeNormalizedOutcome, hdiag, htyp, hact, h2]
  · intro ev hdiag htyp hactr hactd h2 h4
    simp [bridgeNormalizedOutcome, hdiag, htyp, hactr, hactd, h2, h4]
  · intro ev hdiag htypd htypt htypb hactr hactd hactf h2 h4 h5
    simp [bridgeNormalizedOutcome, hdiag, htypd, htypt, htypb, hactr, hactd, hactf,
      h2, h4, h5]
  · intro ev hdiag hpre
    have h2 : pyStartsWith (bridgeEvStatus ev) "2" = true :=
      pyStartsWith_mono hpre (by decide)
    simp [bridgeNormalizedOutcome, hdiag, h2]
  · intro ev hdiag hact
    simp [bridgeNormalizedOutcome, hdiag, hact]
  · intro ev hdiag htyp hact hpre
    have h4 : pyStartsWith (bridgeEvStatus ev) "4" = true :=
      pyStartsWith_mono hpre (by decide)
    have h2 : pyStartsWith (bridgeEvStatus ev) "2" = false :=
      pyStartsWith_head_ne hpre (by decide)
    simp [bridgeNormalizedOutcome, hdiag, htyp, hact, h2, h4]
  · intro ev hdiag htypd htypt hactr hactd hpre
    have h5 : pyStartsWith (bridgeEvStatus ev) "5" = true :=
      pyStartsWith_mono hpre (by decide)
    have h2 : pyStartsWith (bridgeEvStatus ev) "2" = false :=
      pyStartsWith_head_ne hpre (by decide)
    have h4 : pyStartsWith (bridgeEvStatus ev) "4" = false :=
      pyStartsWith_head_ne hpre (by decide)
    simp [bridgeNormalizedOutcome, hdiag, htypd, htypt, hactr, hactd, h2, h4, h5]
  · intro ev hdiag
    simp [bridgeNormalizedOutcome, hdiag]
  · intro s h
    have hne : ¬(pyLower (pyStrip s) = "") := by
      intro h0
      rw [h0] at h
      exact absurd h (by decide)
    simp only [shivaNormalizeOutcomeType]
    rw [if_neg hne]
    rw [if_neg (notMem_of_contains exactDelivered h (by decide)),
      if_neg (notMem_of_contains exactBounced h (by decide)),
      if_neg (notMem_of_contains exactDeferred h (by decide)),
      if_neg (notMem_of_contains exactComplained h (by decide))]
    rw [if_pos (by
      simp only [List.any_eq_true]
      exact ⟨"2.0.0", by decide, h⟩)]
  · intro s hdel h
    have hne : ¬(pyLower (pyStrip s) = "") := by
      intro h0
      rw [h0] at h
      exact absurd h (by decide)
    simp only [shivaNormalizeOutcomeType]
    rw [if_neg hne]
    rw [if_neg (notMem_of_contains exactDelivered h (by decide)),
      if_neg (notMem_of_contains exactBounced h (by decide)),
      if_neg (notMem_of_contains exactDeferred h (by decide)),
      if_neg (notMem_of_contains exactComplained h (by decide))]
    rw [if_neg (by rw [hdel]; simp)]
    rw [if_pos (by
      simp only [List.any_eq_true]
      exact ⟨"5.", by decide, h⟩)]
  · intro s hdel hbnc h
    have hne : ¬(pyLower (pyStrip s) = "") := by
      intro h0
      rw [h0] at h
      exact absurd h (by decide)
    simp only [shivaNormalizeOutcomeType]
    rw [if_neg hne]
    rw [if_neg (notMem_of_contains exactDelivered h (by decide)),
      if_neg (notMem_of_contains exactBounced h (by decide)),
      if_neg (notMem_of_contains exactDeferred h (by decide)),
      if_neg (notMem_of_contains exactComplained h (by decide))]
    rw [if_neg (by rw [hdel]; simp), if_neg (by rw [hbnc]; simp)]
    rw [if_pos (by
      simp only [List.any_eq_true]
      exact ⟨"4.", by decide, h⟩)]

/-! ## Response classification (`_classify_accounting_response`,
`_record_accounting_error`, shiva_app.py:8035-8086) -/

/-- Python `\w` on the ASCII content that flows through the probe. -/
def isWordChar (c : Char) : Bool :=
  (48 ≤ c.toNat && c.toNat ≤ 57) || (65 ≤ c.toNat && c.toNat ≤ 90)
    || (97 ≤ c.toNat && c.toNat ≤ 122) || c = '_'

def boundaryBefore (prev : Option Char) : Bool :=
  match prev with
  | none => true
  | some p => !isWordChar p

/-- Leftmost match of `\b([245])[0-9]{2}\b`, returning group 1. The char
classes are fixed-width, so the regex match at a position is determined. -/
def findCode3 (prev : Option Char) : List Char → Option Char
  | [] => none
  | c :: t =>
    if (c = '2' || c = '4' || c = '5') && boundaryBefore prev
        && (match t with
            | d1 :: d2 :: rest =>
              d1.isDigit && d2.isDigit
                && (match rest with | [] => true | x :: _ => !isWordChar x)
            | _ => false) then
      some c
    else findCode3 (some c) t

/-- Leftmost match of `\b([245])\.[0-9]\.[0-9]\b`, returning group 1. -/
def findCodeEnh (prev : Option Char) : List Char → Option Char
  | [] => none
  | c :: t =>
    if (c = '2' || c = '4' || c = '5') && boundaryBefore prev
        && (match t with
            | p1 :: d1 :: p2 :: d2 :: rest =>
              p1 = '.' && d1.isDigit && p2 = '.' && d2.isDigit
                && (match rest with | [] => true | x :: _ => !isWordChar x)
            | _ => false) then
      some c
    else findCodeEnh (some c) t

def classifyParts (ev : AcctEvent) : List String :=
  let bits := [eventValue ev ["response", "smtp-response", "smtp_response"],
    eventValue ev ["dsnStatus", "dsn_status", "enhanced-status", "enhanced_status"],
    eventValue ev ["dsnDiag", "dsn_diag", "diag", "diagnostic", "smtp-diagnostic"],
    eventValue ev ["status", "result", "state"]]
  (bits.filter (fun x => pyStrip x ≠ "")).map pyStrip

def classifyFull (ev : AcctEvent) : String := String.intercalate " | " (classifyParts ev)

def classifyProbe (ev : AcctEvent) : String :=
  pyLower (String.intercalate " " (classifyParts ev))

/-- Fallback classification from the normalised outcome when no code found. -/
def classifyFallback (typ : String) : String :=
  let t := pyLower (pyStrip typ)
  if t = "delivered" then "accepted"
  else if t = "deferred" then "temporary_error"
  else if t = "bounced" || t = "complained" then "blocked"
  else "temporary_error"

/-- `_classify_accounting_response`: `(kind, full_error_text)`. -/
def classifyAccountingResponse (ev : AcctEvent) (typ : String) : String × String :=
  let full := classifyFull ev
  let codeMatch := match findCode3 none (classifyProbe ev).data with
    | some c => some c
    | none => findCodeEnh none (classifyProbe ev).data
  match codeMatch with
  | some c =>
    if c = '2' then ("accepted", full)
    else if c = '4' then ("temporary_error", full)
    else if c = '5' then ("blocked", full)
    else (classifyFallback typ, full)
  | none => (classifyFallback typ, full)

structure ErrEntry where
  ts : Nat
  email : String
  etype : String
  kind : String
  detail : String
deriving Repr, DecidableEq

/-- The slice of `SendJob` that `_record_accounting_error` reads and writes. -/
structure JobErrState where
  accountingErrorCounts : List (String × Int)
  accountingLastErrors : List ErrEntry
deriving Repr, DecidableEq

def countsGet (m : List (String × Int)) (k : String) : Int :=
  ((m.find? (fun p => p.1 == k)).map (·.2)).getD 0

def countsInc (m : List (String × Int)) (k : String) : List (String × Int) :=
  match m with
  | [] => [(k, 1)]
  | p :: rest => if p.1 = k then (k, p.2 + 1) :: rest else p :: countsInc rest k

/-- `_record_accounting_error`: bump the class counter, append the sample to
the ring, trim the ring to its last 40 entries once it exceeds 80. -/
def recordAccountingError (now : Nat) (job : JobErrState) (rcpt typ : String)
    (ev : AcctEvent) : JobErrState :=
  let kd := classifyAccountingResponse ev typ
  let counts := countsInc job.accountingErrorCounts kd.1
  let entry : ErrEntry := ⟨now, pyStrip rcpt, typ, kd.1, kd.2⟩
  let ring := job.accountingLastErrors ++ [entry]
  let ring2 := if ring.length > 80 then ring.drop (ring.length - 40) else ring
  ⟨counts, ring2⟩

/-- Witness for `C5_normalization_amended` at concrete inputs: a bridge event
whose only signal is type `c` normalises to `unknown` (the bridge has no
complained branch for the type letter), one of type `d` to delivered, one
with enhanced status `2.1.5` to delivered, one with a complaint diagnostic
to complained; shiva-side, `"... 2.0.0 ok"` → delivered, `"4.5.1"` →
bounced, `"4.2.0"` → deferred. -/
theorem C5_normalization_amended_witness :
    bridgeNormalizedOutcome [("type", "c")] = "unknown"
    ∧ bridgeNormalizedOutcome [("type", "d")] = "delivered"
    ∧ bridgeNormalizedOutcome [("dsnStatus", "2.1.5")] = "delivered"
    ∧ bridgeNormalizedOutcome [("dsnDiag", "complaint (fbl)")] = "complained"
    ∧ shivaNormalizeOutcomeType "2.0.0 ok" = "delivered"
    ∧ shivaNormalizeOutcomeType "4.5.1" = "bounced"
    ∧ shivaNormalizeOutcomeType "4.2.0" = "deferred" :=
  ⟨C5_normalization_amended.2.2.2.2.1 [("type", "c")] (by decide) (by decide)
      (by decide) (by decide) (by decide) (by decide) (by decide) (by decide)
      (by decide) (by decide),
    C5_normalization_amended.2.1 [("type", "d")] (by decide) (by decide),
    C5_normalization_amended.2.2.2.2.2.1 [("dsnStatus", "2.1.5")] (by decide) (by decide),
    C5_normalization_amended.2.2.2.2.2.2.2.2.2.1 [("dsnDiag", "complaint (fbl)")] (by decide),
    C5_normalization_amended.2.2.2.2.2.2.2.2.2.2.1 "2.0.0 ok" (by decide),
    C5_normalization_amended.2.2.2.2.2.2.2.2.2.2.2.1 "4.5.1" (by decide) (by decide),
    C5_normalization_amended.2.2.2.2.2.2.2.2.2.2.2.2 "4.2.0" (by decide) (by decide)
      (by decide)⟩

theorem countsGet_countsInc (m : List (String × Int)) (k : String) :
    countsGet (countsInc m k) k = countsGet m k + 1 := by
  induction m with
  | nil => simp [countsInc, countsGet, List.find?]
  | cons p rest ih =>
    by_cases h : p.1 = k
    · simp [countsInc, h, countsGet, List.find?]
    · have hb : (p.1 == k) = false := by simp [h]
      simp only [countsInc, if_neg h, countsGet, List.find?, hb]
      exact ih

theorem getLast?_drop_of_lt {α : Type} (l : List α) (n : Nat) (h : n < l.length) :
    (l.drop n).getLast? = l.getLast? := by
  induction l generalizing n with
  | nil => simp at h
  | cons a t ih =>
    cases n with
    | zero => rfl
    | succ m =>
      simp only [List.drop_succ_cons]
      rw [ih m (by simpa using h)]
      cases t with
      | nil => simp at h
      | cons b u => simp [List.getLast?_cons_cons]

theorem classify_kind_cases (ev : AcctEvent) (typ : String) :
    (classifyAccountingResponse ev typ).1 = "accepted"
    ∨ (classifyAccountingResponse ev typ).1 = "temporary_error"
    ∨ (classifyAccountingResponse ev typ).1 = "blocked" := by
  have hfb : classifyFallback typ = "accepted" ∨ classifyFallback typ = "temporary_error"
      ∨ classifyFallback typ = "blocked" := by
    simp only [classifyFallback]
    split_ifs <;> simp
  simp only [classifyAccountingResponse]
  rcases hm : (match findCode3 none (classifyProbe ev).data with
    | some c => some c
    | none => findCodeEnh none (classifyProbe ev).data) with - | c
  · rw [hm]
    simpa using hfb
  · rw [hm]
    simp only []
    split_ifs <;> simp_all

/-- C8 counterexample: a delivered event whose response carries a 250 code is
classified `accepted`, and `_record_accounting_error` appends it to
`accounting_last_errors` all the same — the ring does receive entries of
class `accepted`, contrary to the claim's "excluding accepted". -/
theorem C8_error_ring_counterexample :
    (classifyAccountingResponse [("response", "250 2.0.0 ok")] "delivered").1 = "accepted"
    ∧ (recordAccountingError 7 ⟨[], []⟩ "a@b.com" "delivered"
        [("response", "250 2.0.0 ok")]).accountingLastErrors
      = [⟨7, "a@b.com", "delivered", "accepted", "250 2.0.0 ok"⟩] := by decide

/-- C8 as amended: every reconciled event's response is classified into
exactly one of accepted / temporary_error / blocked; a leading 2/4/5 in the
first SMTP 3-digit code (or enhanced `x.y.z` code) of the response/dsn probe
maps to accepted/temporary_error/blocked respectively; the per-class counter
of the classified class is incremented; and the bounded (≤ 80, trimmed back
to 40 on overflow) ring receives the classified entry for *every* event —
including those of class accepted. -/
theorem C8_classification_amended :
    (∀ (ev : AcctEvent) (typ : String),
      (classifyAccountingResponse ev typ).1 = "accepted"
      ∨ (classifyAccountingResponse ev typ).1 = "temporary_error"
      ∨ (classifyAccountingResponse ev typ).1 = "blocked")
    ∧ (∀ (ev : AcctEvent) (typ : String), findCode3 none (classifyProbe ev).data = some '2' →
        (classifyAccountingResponse ev typ).1 = "accepted")
    ∧ (∀ (ev : AcctEvent) (typ : String), findCode3 none (classifyProbe ev).data = some '4' →
        (classifyAccountingResponse ev typ).1 = "temporary_error")
    ∧ (∀ (ev : AcctEvent) (typ : String), findCode3 none (classifyProbe ev).data = some '5' →
        (classifyAccountingResponse ev typ).1 = "blocked")
    ∧ (∀ (ev : AcctEvent) (typ : String), findCode3 none (classifyProbe ev).data = none →
        findCodeEnh none (classifyProbe ev).data = some '2' →
        (classifyAccountingResponse ev typ).1 = "accepted")
    ∧ (∀ (ev : AcctEvent) (typ : String), findCode3 none (classifyProbe ev).data = none →
        findCodeEnh none (classifyProbe ev).data = some '4' →
        (classifyAccountingResponse ev typ).1 = "temporary_error")
    ∧ (∀ (ev : AcctEvent) (typ : String), findCode3 none (classifyProbe ev).data = none →
        findCodeEnh none (classifyProbe ev).data = some '5' →
        (classifyAccountingResponse ev typ).1 = "blocked")
    ∧ (∀ (now : Nat) (job : JobErrState) (rcpt typ : String) (ev : AcctEvent),
        countsGet (recordAccountingError now job rcpt typ ev).accountingErrorCounts
            (classifyAccountingResponse ev typ).1
          = countsGet job.accountingErrorCounts (classifyAccountingResponse ev typ).1 + 1)
    ∧ (∀ (now : Nat) (job : JobErrState) (rcpt typ : String) (ev : AcctEvent),
        (recordAccountingError now job rcpt typ ev).accountingLastErrors.getLast?
          = some ⟨now, pyStrip rcpt, typ, (classifyAccountingResponse ev typ).1,
              (classifyAccountingResponse ev typ).2⟩)
    ∧ (∀ (now : Nat) (job : JobErrState) (rcpt typ : String) (ev : AcctEvent),
        job.accountingLastErrors.length ≤ 80 →
        (recordAccountingError now job rcpt typ ev).accountingLastErrors.length ≤ 80) := by
  refine ⟨classify_kind_cases, ?_, ?_, ?_, ?_, ?_, ?_, ?_, ?_, ?_⟩
  · intro ev typ h
    simp [classifyAccountingResponse, h]
  · intro ev typ h
    simp [classifyAccountingResponse, h]
  · intro ev typ h
    simp [classifyAccountingResponse, h]
  · intro ev typ h3 he
    simp [classifyAccountingResponse, h3, he]
  · intro ev typ h3 he
    simp [classifyAccountingResponse, h3, he]
  · intro ev typ h3 he
    simp [classifyAccountingResponse, h3, he]
  · intro now job rcpt typ ev
    unfold recordAccountingError
    exact countsGet_countsInc _ _
  · intro now job rcpt typ ev
    unfold recordAccountingError
    simp only []
    split
    · next hlen =>
      rw [getLast?_drop_of_lt _ _ (by
        rw [List.length_append]
        simp only [List.length_singleton]
        omega)]
      simp
    · simp
  · intro now job rcpt typ ev hlen
    unfold recordAccountingError
    simp only []
    split
    · next h =>
      rw [List.length_drop]
      omega
    · next h =>
      rw [List.length_append] at h ⊢
      simp only [List.length_singleton] at h ⊢
      omega

/-! ## Message-ID emission and job-id extraction (C2)

`worker_send` (shiva_app.py:8863) emits
`<uuid4_hex.job_id.campaign_or_none.c<chunk>.w<worker>@local>`; shiva's
`_extract_job_id_from_text` (7760-7774) and the bridge's
`_parse_ids_from_message_id` (127-156) parse it back.

The regexes are embedded as deterministic matchers: in each of them every
quantified class (`[a-f0-9]{8,64}`, `[^.<>@\s]+`, `[0-9]+`) is immediately
followed by a literal that the class excludes, so the greedy match with
backtracking is forced to take exactly the maximal run — there is never more
than one viable cut, and the matcher below takes it. -/

/-- `[a-f0-9]` after lowercasing (the regexes are IGNORECASE, so matching the
lowercased text against the lowercase classes is equivalent). -/
def isHexL (c : Char) : Bool := c.isDigit || (97 ≤ c.toNat && c.toNat ≤ 102)

/-- `[.]c[0-9]+[.]w[0-9]+@local`, on lowercased input. -/
def matchChunkWorker (l : List Char) : Bool :=
  match l with
  | '.' :: 'c' :: rest =>
    let s1 := rest.span Char.isDigit
    !s1.1.isEmpty &&
      (match s1.2 with
      | '.' :: 'w' :: rest3 =>
        let s2 := rest3.span Char.isDigit
        !s2.1.isEmpty && "@local".data.isPrefixOf s2.2
      | _ => false)
  | _ => false

/-- `_JOBID_RE_1` at one position:
`[.][a-f0-9]{8,64}[.]([a-f0-9]{12})[.]([a-f0-9]{8,64}|none)[.]c[0-9]+[.]w[0-9]+@local`;
returns group 1. -/
def matchJobIdRe1At (l : List Char) : Option (List Char) :=
  match l with
  | '.' :: rest =>
    let s1 := rest.span isHexL
    if 8 ≤ s1.1.length ∧ s1.1.length ≤ 64 then
      match s1.2 with
      | '.' :: rest3 =>
        let g := rest3.take 12
        let rest4 := rest3.drop 12
        if g.length = 12 ∧ g.all isHexL then
          match rest4 with
          | '.' :: rest5 =>
            let s2 := rest5.span isHexL
            if 8 ≤ s2.1.length ∧ s2.1.length ≤ 64 ∧ matchChunkWorker s2.2 then some g
            else if "none".data.isPrefixOf rest5 ∧ matchChunkWorker (rest5.drop 4) then some g
            else none
          | _ => none
        else none
      | _ => none
    else none
  | _ => none

/-- `_JOBID_RE_2` at one position:
`[.][a-f0-9]{8,64}[.]([a-f0-9]{12})[.]c[0-9]+[.]w[0-9]+@local`; returns group 1. -/
def matchJobIdRe2At (l : List Char) : Option (List Char) :=
  match l with
  | '.' :: rest =>
    let s1 := rest.span isHexL
    if 8 ≤ s1.1.length ∧ s1.1.length ≤ 64 then
      match s1.2 with
      | '.' :: rest3 =>
        let g := rest3.take 12
        let rest4 := rest3.drop 12
        if g.length = 12 ∧ g.all isHexL ∧ matchChunkWorker rest4 then some g else none
      | _ => none
    else none
  | _ => none

/-- `re.search`: try the pattern at each position, leftmost first. -/
def searchAt {α : Type} (f : List Char → Option α) : List Char → Option α
  | [] => f []
  | c :: t =>
    match f (c :: t) with
    | some a => some a
    | none => searchAt f t

/-- shiva's `_extract_job_id_from_text`: RE_1 first, then RE_2, group 1
lowercased (the input is lowercased up front, which commutes with the
IGNORECASE matching and the final `.lower()`). -/
def extractJobIdFromTextS (text : String) : String :=
  let t := pyStrip text
  if t = "" then ""
  else
    match searchAt matchJobIdRe1At (t.data.map Char.toLower) with
    | some g => ⟨g⟩
    | none =>
      match searchAt matchJobIdRe2At (t.data.map Char.toLower) with
      | some g => ⟨g⟩
      | none => ""

/-- `[^.<>@\s]` of `_PMTA_MESSAGE_ID_RE`. -/
def msgidTokChar (c : Char) : Bool :=
  !(c = '.' || c = '<' || c = '>' || c = '@' || pyWsChar c)

/-- `_PMTA_MESSAGE_ID_RE`, anchored:
`^<[^.<>@\s]+[.]([^.<>@\s]+)[.]([^.<>@\s]+)[.]c\d+[.]w\d+@[^>]+>$`  (matching
on lowercased input — every literal in the pattern is caseless or lowercase
and the classes are case-closed, so this is equivalent to IGNORECASE). -/
def matchPmtaMsgId (l : List Char) : Option (List Char × List Char) :=
  match l with
  | '<' :: rest =>
    let s0 := rest.span msgidTokChar
    if s0.1.isEmpty then none
    else
      match s0.2 with
      | '.' :: rest1 =>
        let s1 := rest1.span msgidTokChar
        if s1.1.isEmpty then none
        else
          match s1.2 with
          | '.' :: rest2 =>
            let s2 := rest2.span msgidTokChar
            if s2.1.isEmpty then none
            else
              match s2.2 with
              | '.' :: 'c' :: rest3 =>
                let d1 := rest3.span Char.isDigit
                if d1.1.isEmpty then none
                else
                  match d1.2 with
                  | '.' :: 'w' :: rest4 =>
                    let d2 := rest4.span Char.isDigit
                    if d2.1.isEmpty then none
                    else
                      match d2.2 with
                      | '@' :: rest5 =>
                        let tail := rest5.span (fun c => c ≠ '>')
                        if !tail.1.isEmpty ∧ tail.2 = ['>'] then some (s1.1, s2.1)
                        else none
                      | _ => none
                  | _ => none
              | _ => none
          | _ => none
      | _ => none
  | _ => none

/-- The bridge's `_parse_ids_from_message_id`: `(job_id, campaign_id)` from a
full `re.match`, both stripped and lowercased; `("", "")` when the Message-ID
does not match. -/
def parseIdsFromMessageId (value : String) : String × String :=
  let msgid := pyStrip value
  if msgid = "" then ("", "")
  else
    match matchPmtaMsgId (msgid.data.map Char.toLower) with
    | some (g1, g2) => (pyLower (pyStrip ⟨g1⟩), pyLower (pyStrip ⟨g2⟩))
    | none => ("", "")

/-- The Message-ID built by `worker_send` (shiva_app.py:8863):
`f"<{uuid4().hex}.{job_id}.{campaign_id or 'none'}.c{chunk}.w{worker}@local>"`. -/
def mkMessageId (uuidHex jobId campaignId : String) (chunkIdx workerIdx : Nat) : String :=
  "<" ++ uuidHex ++ "." ++ jobId ++ "."
    ++ (if campaignId = "" then "none" else campaignId)
    ++ ".c" ++ toString chunkIdx ++ ".w" ++ toString workerIdx ++ "@local>"

/-- C2: on the exact Message-ID format the sender pool emits, shiva's own
`_extract_job_id_from_text` does NOT recover the job id. Its regexes demand a
`.` before the uuid token (`[.][a-f0-9]{8,64}[.](...)`), but the emitted
Message-ID has `<` there; the leftmost match therefore starts at the dot
*after* the uuid, shifting every token one place right: `_JOBID_RE_2`'s
capture lands on the campaign id (returned as the "job id"), and with
campaign `none` nothing matches at all, so `""` is returned.  The bridge's
anchored `_parse_ids_from_message_id` recovers both ids correctly. The
function's own comment (shiva_app.py:7758-7759) documents the emitted format
this extraction is meant to parse, so the regexes are a slip. -/
theorem C2_message_id_extraction_bug :
    extractJobIdFromTextS
        (mkMessageId "0123456789abcdef0123456789abcdef" "aaaaaaaaaaaa" "bbbbbbbbbbbb" 0 0)
      = "bbbbbbbbbbbb"
    ∧ ("bbbbbbbbbbbb" : String) ≠ "aaaaaaaaaaaa"
    ∧ extractJobIdFromTextS
        (mkMessageId "0123456789abcdef0123456789abcdef" "aaaaaaaaaaaa" "" 0 0) = ""
    ∧ parseIdsFromMessageId
        (mkMessageId "0123456789abcdef0123456789abcdef" "aaaaaaaaaaaa" "bbbbbbbbbbbb" 0 0)
      = ("aaaaaaaaaaaa", "bbbbbbbbbbbb")
    ∧ parseIdsFromMessageId
        (mkMessageId "0123456789abcdef0123456789abcdef" "aaaaaaaaaaaa" "" 0 0)
      = ("aaaaaaaaaaaa", "none") := by decide

/-! ## CSV tokenisation, email shape and shiva's `_parse_accounting_line`
(shiva_app.py:7872-7948) -/

inductive CsvState
  | start
  | inField
  | inQuoted
  | quoteInQuoted
deriving Repr, DecidableEq

/-- Python `csv.reader` (default dialect, `doublequote=True`, non-strict) on
one line: a quote is special only at field start; inside a quoted field `""`
is a literal quote; after a closing quote further text is appended verbatim. -/
def csvSplitAux (delim : Char) : CsvState → List Char → List Char → List String
  | _, cur, [] => [⟨cur⟩]
  | .start, cur, c :: t =>
    if c = '"' then csvSplitAux delim .inQuoted cur t
    else if c = delim then (⟨cur⟩ : String) :: csvSplitAux delim .start [] t
    else csvSplitAux delim .inField (cur ++ [c]) t
  | .inField, cur, c :: t =>
    if c = delim then (⟨cur⟩ : String) :: csvSplitAux delim .start [] t
    else csvSplitAux delim .inField (cur ++ [c]) t
  | .inQuoted, cur, c :: t =>
    if c = '"' then csvSplitAux delim .quoteInQuoted cur t
    else csvSplitAux delim .inQuoted (cur ++ [c]) t
  | .quoteInQuoted, cur, c :: t =>
    if c = '"' then csvSplitAux delim .inQuoted (cur ++ ['"']) t
    else if c = delim then (⟨cur⟩ : String) :: csvSplitAux delim .start [] t
    else csvSplitAux delim .inField (cur ++ [c]) t

def csvSplit (delim : Char) (s : String) : List String :=
  csvSplitAux delim .start [] s.data

/-- Delimiter choice of `_parse_accounting_line`: tab wins over comma when
present and equal-or-more frequent; semicolon only when strictly more
frequent than comma. -/
def chooseDelim (s : String) : Char :=
  if 1 ≤ s.data.count '\t' ∧ s.data.count ',' ≤ s.data.count '\t' then '\t'
  else if 1 ≤ s.data.count ';' ∧ s.data.count ',' < s.data.count ';' then ';'
  else ','

/-- `EMAIL_RE = ^[^@\s]+@[^@\s]+\.[^@\s]+$` (shiva_app.py:95) via `.match`:
no whitespace, exactly one `@` with a nonempty local part, and a dot at an
internal position of the domain. -/
def emailLike (s : String) : Bool :=
  let cs := s.data
  let loc := cs.takeWhile (fun c => c ≠ '@')
  match cs.dropWhile (fun c => c ≠ '@') with
  | '@' :: dom =>
    !loc.isEmpty && !loc.any pyWsChar
      && !dom.any (fun c => c = '@' || pyWsChar c)
      && ((dom.drop 1).dropLast).contains '.'
  | _ => false

/-! A minimal `json.loads` for the NDJSON branch: flat objects whose values
are strings (with the common escapes), integers/floats (kept as their source
text), `true`/`false` (as Python's `str(True)`/`str(False)`) or `null`
(which every consuming path treats like an absent/empty value). Anything
else fails, which the caller treats as an unparseable line — exactly the
`except: return None` behaviour. -/

def jsonSkipWs (l : List Char) : List Char := l.dropWhile (fun c => pyWsChar c)

def jsonStringAux : List Char → List Char → Option (List Char × List Char)
  | [], _ => none
  | '"' :: t, acc => some (acc.reverse, t)
  | '\\' :: t, acc =>
    match t with
    | [] => none
    | e :: t2 =>
      if e = '"' then jsonStringAux t2 ('"' :: acc)
      else if e = '\\' then jsonStringAux t2 ('\\' :: acc)
      else if e = '/' then jsonStringAux t2 ('/' :: acc)
      else if e = 'n' then jsonStringAux t2 ('\n' :: acc)
      else if e = 't' then jsonStringAux t2 ('\t' :: acc)
      else if e = 'r' then jsonStringAux t2 ('\r' :: acc)
      else none
  | c :: t, acc => jsonStringAux t (c :: acc)

def jsonValue (l : List Char) : Option (String × List Char) :=
  match l with
  | '"' :: t => (jsonStringAux t []).map (fun p => (⟨p.1⟩, p.2))
  | _ =>
    if "true".data.isPrefixOf l then some ("True", l.drop 4)
    else if "false".data.isPrefixOf l then some ("False", l.drop 5)
    else if "null".data.isPrefixOf l then some ("", l.drop 4)
    else
      let num := l.takeWhile (fun c => c.isDigit || c = '-' || c = '+' || c = '.'
        || c = 'e' || c = 'E')
      if num.isEmpty then none else some (⟨num⟩, l.drop num.length)

def evSet (ev : AcctEvent) (k v : String) : AcctEvent :=
  match ev with
  | [] => [(k, v)]
  | p :: rest => if p.1 = k then (k, v) :: rest else p :: evSet rest k v

def jsonPairs : Nat → List Char → AcctEvent → Option (AcctEvent × List Char)
  | 0, _, _ => none
  | fuel + 1, l, acc =>
    match jsonSkipWs l with
    | '"' :: t =>
      match jsonStringAux t [] with
      | none => none
      | some (key, rest1) =>
        match jsonSkipWs rest1 with
        | ':' :: rest2 =>
          match jsonValue (jsonSkipWs rest2) with
          | none => none
          | some (v, rest3) =>
            let acc2 := evSet acc ⟨key⟩ v
            match jsonSkipWs rest3 with
            | ',' :: rest4 => jsonPairs fuel rest4 acc2
            | '}' :: rest4 => some (acc2, rest4)
            | _ => none
        | _ => none
    | _ => none

def jsonParseFlat (s : String) : Option AcctEvent :=
  match jsonSkipWs s.data with
  | '{' :: t =>
    match jsonSkipWs t with
    | '}' :: rest => if (jsonSkipWs rest).isEmpty then some [] else none
    | _ =>
      match jsonPairs (s.data.length + 1) t [] with
      | some (ev, rest) => if (jsonSkipWs rest).isEmpty then some ev else none
      | none => none
  | _ => none

/-- Per-path learned CSV headers (`_PMTA_ACC_HEADERS` in shiva,
`_CSV_HEADER_STATE` in the bridge). -/
abbrev HeaderState := List (String × List String)

def hdrGet (st : HeaderState) (path : String) : List String :=
  (((st.find? (fun p => p.1 == path)).map (·.2)).getD [])

def hdrSet (st : HeaderState) (path : String) (hdr : List String) : HeaderState :=
  match st with
  | [] => [(path, hdr)]
  | p :: rest => if p.1 = path then (path, hdr) :: rest else p :: hdrSet rest path hdr

def headerNames : List String :=
  ["type", "event", "rcpt", "recipient", "msgid", "message-id", "message_id"]

def evSetMany (ev : AcctEvent) (pairs : List (String × String)) : AcctEvent :=
  pairs.foldl (fun e p => if p.1 ≠ "" then evSet e p.1 p.2 else e) ev

/-- The stripped CSV token list of one line. -/
def parseFields (s : String) : List String := (csvSplit (chooseDelim s) s).map pyStrip

/-- shiva's `_parse_accounting_line(line, path=...)`: returns the parsed
event (or `none` for blank/JSON-failure/header rows) and the updated header
state. -/
def parseAccountingLineS (line path : String) (hdrs : HeaderState) :
    Option AcctEvent × HeaderState :=
  let s := pyStrip line
  if s = "" then (none, hdrs)
  else if pyStartsWith s "\x7b" ∧ pyEndsWith s "\x7d" then
    (jsonParseFlat s, hdrs)
  else
    let fields := parseFields s
    if fields ≠ [] ∧ fields.any (fun x => pyLower x ∈ headerNames) then
      (none, hdrSet hdrs path (fields.map (fun x => pyLower (pyStrip x))))
    else
      let hdr := hdrGet hdrs path
      let ev0 : AcctEvent := [("raw", s)]
      if hdr ≠ [] ∧ hdr.length = fields.length then
        (some (evSetMany ev0 (hdr.zip fields)), hdrs)
      else
        let ev1 := match fields.head? with
          | some f0 => evSet ev0 "type" f0
          | none => ev0
        let ev2 :=
          if 9 ≤ fields.length then
            evSet (evSet (evSet (evSet (evSet ev1
              "mailfrom" (fields.getD 3 "")) "rcpt" (fields.getD 4 ""))
              "status" (fields.getD 6 "")) "dsnStatus" (fields.getD 7 ""))
              "dsnDiag" (fields.getD 8 "")
          else ev1
        let ems := fields.filter emailLike
        let ev3 :=
          if 2 ≤ ems.length then evSet ev2 "rcpt" (ems.getD 1 "")
          else if 1 ≤ ems.length ∧ evGet ev2 "rcpt" = none then
            evSet ev2 "rcpt" (ems.getD 0 "")
          else ev2
        let ev4 := match fields.find? (fun f => pyContains f "@local" || pyContains f "<") with
          | some f => evSet ev3 "msgid" f
          | none => ev3
        (some ev4, hdrs)

theorem evGet_evSet_self (ev : AcctEvent) (k v : String) :
    evGet (evSet ev k v) k = some v := by
  induction ev with
  | nil => simp [evSet, evGet, List.find?]
  | cons p rest ih =>
    by_cases h : p.1 = k
    · simp [evSet, h, evGet, List.find?]
    · have hb : (p.1 == k) = false := by simp [h]
      simp only [evSet, if_neg h, evGet, List.find?, hb]
      exact ih

theorem evGet_evSet_ne (ev : AcctEvent) (k v k2 : String) (hne : k2 ≠ k) :
    evGet (evSet ev k v) k2 = evGet ev k2 := by
  induction ev with
  | nil =>
    have hb : (k == k2) = false := by simp [Ne.symm hne]
    simp [evSet, evGet, List.find?, hb]
  | cons p rest ih =>
    by_cases h : p.1 = k
    · have hk : (k == k2) = false := by simp [Ne.symm hne]
      have hp : (p.1 == k2) = false := by
        simp only [h]
        exact hk
      simp [evSet, if_pos h, evGet, List.find?, hk, hp]
    · by_cases h2 : p.1 = k2
      · have hp : (p.1 == k2) = true := by simp [h2]
        simp [evSet, if_neg h, evGet, List.find?, hp]
      · have hp : (p.1 == k2) = false := by simp [h2]
        simp only [evSet, if_neg h, evGet, List.find?, hp]
        exact ih

/-- C9 counterexample: a headerless 9-column line whose legacy positional
mapping sets `rcpt` to field 4 (`rcpt@ex.com`), yet the email fallback sees a
second email-shaped token later in the line (`second@ex.com`, in the dsnDiag
column) and overwrites the already-set `rcpt` with it — the fallback is not
conditional on `rcpt` being absent when two email-shaped tokens exist. -/
theorem C9_rcpt_fallback_counterexample :
    ((parseAccountingLineS "b,t1,t2,x,rcpt@ex.com,,failed,5.1.1,second@ex.com" "" []).1.map
        (fun ev => evGet ev "rcpt"))
      = some (some "second@ex.com")
    ∧ ("second@ex.com" : String) ≠ "rcpt@ex.com" := by decide

/-- C9 as amended: in the CSV fallback path (no learned header, not a header
row), when the line carries **two or more** email-shaped tokens the second is
chosen as `rcpt` unconditionally — overwriting a value the legacy 9-column
mapping may have set; only when exactly **one** email-shaped token is present
is it used solely when `rcpt` is absent, so a ≥9-column line keeps its
positional `rcpt` (field 4) in that case. -/
theorem C9_rcpt_fallback_amended (line path : String) (st : HeaderState)
    (h0 : pyStrip line ≠ "")
    (h1 : ¬(pyStartsWith (pyStrip line) "\x7b" ∧ pyEndsWith (pyStrip line) "\x7d"))
    (h2 : ∀ x ∈ parseFields (pyStrip line), pyLower x ∉ headerNames)
    (h3 : hdrGet st path = []) :
    (2 ≤ ((parseFields (pyStrip line)).filter emailLike).length →
      ((parseAccountingLineS line path st).1.map (fun ev => evGet ev "rcpt"))
        = some (some (((parseFields (pyStrip line)).filter emailLike).getD 1 "")))
    ∧ (((parseFields (pyStrip line)).filter emailLike).length = 1 →
      9 ≤ (parseFields (pyStrip line)).length →
      ((parseAccountingLineS line path st).1.map (fun ev => evGet ev "rcpt"))
        = some (some ((parseFields (pyStrip line)).getD 4 "")))
    ∧ (((parseFields (pyStrip line)).filter emailLike).length = 1 →
      (parseFields (pyStrip line)).length < 9 →
      ((parseAccountingLineS line path st).1.map (fun ev => evGet ev "rcpt"))
        = some (some (((parseFields (pyStrip line)).filter emailLike).getD 0 ""))) := by
  have hany : ¬(parseFields (pyStrip line) ≠ []
      ∧ (parseFields (pyStrip line)).any (fun x => pyLower x ∈ headerNames) = true) := by
    rintro ⟨-, hany⟩
    obtain ⟨x, hx, hdec⟩ := List.any_eq_true.mp hany
    exact h2 x hx (of_decide_eq_true hdec)
  have hhdr : ¬(hdrGet st path ≠ [] ∧ (hdrGet st path).length = (parseFields (pyStrip line)).length) := by
    rw [h3]
    simp
  simp only [parseAccountingLineS]
  rw [if_neg h0, if_neg h1, if_neg hany, if_neg hhdr]
  set s := pyStrip line with hs
  set fields := parseFields s with hfields
  set ems := fields.filter emailLike with hems
  set ev1 := (match fields.head? with
    | some f0 => evSet [("raw", s)] "type" f0
    | none => ([("raw", s)] : AcctEvent)) with hev1
  have hev1rcpt : evGet ev1 "rcpt" = none := by
    rw [hev1]
    cases fields.head? with
    | none => simp [evGet, List.find?]
    | some f0 =>
      simp only []
      rw [evGet_evSet_ne _ _ _ _ (by decide)]
      simp [evGet, List.find?]
  refine ⟨?_, ?_, ?_⟩
  · intro hlen
    rw [if_pos hlen]
    by_cases h9 : 9 ≤ fields.length
    · rw [if_pos h9]
      cases hfind : fields.find? (fun f => pyContains f "@local" || pyContains f "<") with
      | none =>
        simp only [hfind, Option.map_some']
        rw [evGet_evSet_self]
      | some f =>
        simp only [hfind, Option.map_some']
        rw [evGet_evSet_ne _ "msgid" f "rcpt" (by decide), evGet_evSet_self]
    · rw [if_neg h9]
      cases hfind : fields.find? (fun f => pyContains f "@local" || pyContains f "<") with
      | none =>
        simp only [hfind, Option.map_some']
        rw [evGet_evSet_self]
      | some f =>
        simp only [hfind, Option.map_some']
        rw [evGet_evSet_ne _ "msgid" f "rcpt" (by decide), evGet_evSet_self]
  · intro hlen h9
    rw [if_pos h9]
    have hrcpt2 : evGet (evSet (evSet (evSet (evSet (evSet ev1
        "mailfrom" (fields.getD 3 "")) "rcpt" (fields.getD 4 ""))
        "status" (fields.getD 6 "")) "dsnStatus" (fields.getD 7 ""))
        "dsnDiag" (fields.getD 8 "")) "rcpt" = some (fields.getD 4 "") := by
      rw [evGet_evSet_ne _ "dsnDiag" (fields.getD 8 "") "rcpt" (by decide),
        evGet_evSet_ne _ "dsnStatus" (fields.getD 7 "") "rcpt" (by decide),
        evGet_evSet_ne _ "status" (fields.getD 6 "") "rcpt" (by decide),
        evGet_evSet_self]
    rw [if_neg (by omega : ¬2 ≤ ems.length)]
    rw [if_neg (by
      rintro ⟨-, hnone⟩
      rw [hrcpt2] at hnone
      exact absurd hnone (by simp))]
    cases hfind : fields.find? (fun f => pyContains f "@local" || pyContains f "<") with
    | none =>
      simp only [hfind, Option.map_some']
      rw [hrcpt2]
    | some f =>
      simp only [hfind, Option.map_some']
      rw [evGet_evSet_ne _ "msgid" f "rcpt" (by decide), hrcpt2]
  · intro hlen h9
    rw [if_neg (by omega : ¬9 ≤ fields.length)]
    rw [if_neg (by omega : ¬2 ≤ ems.length)]
    rw [if_pos ⟨by omega, hev1rcpt⟩]
    cases hfind : fields.find? (fun f => pyContains f "@local" || pyContains f "<") with
    | none =>
      simp only [hfind, Option.map_some']
      rw [evGet_evSet_self]
    | some f =>
      simp only [hfind, Option.map_some']
      rw [evGet_evSet_ne _ "msgid" f "rcpt" (by decide), evGet_evSet_self]

/-- Witness for `C9_rcpt_fallback_amended` at concrete lines: the overwrite
line, a one-email 9-column line that keeps its positional rcpt, and a short
one-email line that adopts the single email token. -/
theorem C9_rcpt_fallback_amended_witness :
    ((parseAccountingLineS "b,t1,t2,x,rcpt@ex.com,,failed,5.1.1,second@ex.com" "" []).1.map
        (fun ev => evGet ev "rcpt")) = some (some "second@ex.com")
    ∧ ((parseAccountingLineS "b,t1,t2,x,rcpt@ex.com,,failed,5.1.1,diag" "" []).1.map
        (fun ev => evGet ev "rcpt")) = some (some "rcpt@ex.com")
    ∧ ((parseAccountingLineS "d,2026-01-01,user@ex.com" "" []).1.map
        (fun ev => evGet ev "rcpt")) = some (some "user@ex.com") := by
  refine ⟨?_, ?_, ?_⟩
  · have := (C9_rcpt_fallback_amended
      "b,t1,t2,x,rcpt@ex.com,,failed,5.1.1,second@ex.com" "" []
      (by decide) (by decide) (by decide) (by decide)).1 (by decide)
    simpa using this
  · have := (C9_rcpt_fallback_amended
      "b,t1,t2,x,rcpt@ex.com,,failed,5.1.1,diag" "" []
      (by decide) (by decide) (by decide) (by decide)).2.1 (by decide) (by decide)
    simpa using this
  · have := (C9_rcpt_fallback_amended "d,2026-01-01,user@ex.com" "" []
      (by decide) (by decide) (by decide) (by decide)).2.2 (by decide) (by decide)
    simpa using this

/-! ## Start guard and the `/start` gate (C4)

`start_guard_acquire` / `start_guard_release` (shiva_app.py:458-480) and the
prefix of the `start` handler up to the point where the job is created
(shiva_app.py:10844-10881). Time is ℚ (`time.time()`), and the HTTP handler
prefix is modelled as a gate: only a `proceed` result reaches job creation —
every other result returns before any job exists. -/

abbrev GuardMap := List (String × ℚ)

def START_GUARD_TTL : ℚ := 180

def guardSet (g : GuardMap) (cid : String) (t : ℚ) : GuardMap :=
  match g with
  | [] => [(cid, t)]
  | p :: rest => if p.1 = cid then (cid, t) :: rest else p :: guardSet rest cid t

/-- `start_guard_acquire`: purge stale entries, refuse when a truthy
timestamp within the TTL is present (Python's `if ts and ...` — a stored
`0.0` is falsy), otherwise record `now`. -/
def startGuardAcquire (g : GuardMap) (campaignId : String) (now : ℚ) : Bool × GuardMap :=
  let cid := pyStrip campaignId
  if cid = "" then (true, g)
  else
    let purged := g.filter (fun p => ¬(START_GUARD_TTL < now - p.2))
    match (purged.find? (fun p => p.1 == cid)).map (·.2) with
    | some ts =>
      if ts ≠ 0 ∧ now - ts ≤ START_GUARD_TTL then (false, purged)
      else (true, guardSet purged cid now)
    | none => (true, guardSet purged cid now)

/-- `start_guard_release` (run by the teardown hook after every request). -/
def startGuardRelease (g : GuardMap) (campaignId : String) : GuardMap :=
  let cid := pyStrip campaignId
  if cid = "" then g else g.filter (fun p => ¬(p.1 = cid))

structure GateJob where
  id : String
  campaignId : String
  status : String
  deleted : Bool
  createdAt : Nat
deriving Repr, DecidableEq

/-- The handler's active-job filter: not deleted, same campaign, status in
{queued, running, backoff, paused}. -/
def activeJobs (jobs : List GateJob) (cid : String) : List GateJob :=
  jobs.filter (fun j => !j.deleted && j.campaignId == cid
    && (j.status == "queued" || j.status == "running"
      || j.status == "backoff" || j.status == "paused"))

inductive GateResult
  | badRequest
  | tooManyRequests
  | conflict
  | proceed
deriving Repr, DecidableEq

structure StartRequest where
  permissionOk : Bool
  campaignId : String
  /-- truthiness of `db_get_campaign(bid, campaign_id)` -/
  campaignValid : Bool
  forceNewJob : Bool
  now : ℚ
deriving Repr, DecidableEq

/-- The `/start` handler prefix: permission and campaign validation (400),
the per-campaign guard (429), then — only when `force_new_job` is NOT set —
the active-job check (409). `proceed` is the point where the handler goes on
to create the job. -/
def startGate (g : GuardMap) (jobs : List GateJob) (req : StartRequest) :
    GateResult × GuardMap :=
  if ¬req.permissionOk then (.badRequest, g)
  else if pyStrip req.campaignId = "" then (.badRequest, g)
  else if ¬req.campaignValid then (.badRequest, g)
  else
    let acq := startGuardAcquire g req.campaignId req.now
    if ¬acq.1 then (.tooManyRequests, acq.2)
    else if ¬req.forceNewJob ∧ activeJobs jobs (pyStrip req.campaignId) ≠ [] then
      (.conflict, acq.2)
    else (.proceed, acq.2)

theorem guardSet_find (g : GuardMap) (cid : String) (t : ℚ) :
    (guardSet g cid t).find? (fun p => p.1 == cid) = some (cid, t) := by
  induction g with
  | nil => simp [guardSet, List.find?]
  | cons p rest ih =>
    by_cases h : p.1 = cid
    · simp [guardSet, h, List.find?]
    · have hb : (p.1 == cid) = false := by simp [h]
      simp only [guardSet, if_neg h, List.find?, hb]
      exact ih

theorem find?_filter_of_find? {α : Type} (l : List α) (q keep : α → Bool) (x : α)
    (hf : l.find? q = some x) (hk : keep x = true) :
    (l.filter keep).find? q = some x := by
  induction l with
  | nil => simp [List.find?] at hf
  | cons a rest ih =>
    by_cases hq : q a
    · have : a = x := by
        rw [List.find?] at hf
        rw [hq] at hf
        simpa using hf
      subst this
      simp [List.filter_cons, hk, List.find?, hq]
    · have hb : q a = false := by simpa using hq
      rw [List.find?] at hf
      rw [hb] at hf
      simp only [List.filter_cons]
      split
      · rw [List.find?, hb]
        exact ih hf
      · exact ih hf

/-- Shape of a successful `start_guard_acquire`: when it returns `True` the
map now holds `now` under the campaign key (on top of the purged map). -/
theorem startGuardAcquire_spec (g : GuardMap) (c : String) (t : ℚ)
    (hc : pyStrip c ≠ "") (hacq : (startGuardAcquire g c t).1 = true) :
    (startGuardAcquire g c t).2
      = guardSet (g.filter (fun p => ¬(START_GUARD_TTL < t - p.2))) (pyStrip c) t := by
  simp only [startGuardAcquire, if_neg hc] at hacq ⊢
  cases hfind : (((g.filter (fun p => ¬(START_GUARD_TTL < t - p.2))).find?
      (fun p => p.1 == pyStrip c)).map (·.2)) with
  | none => rfl
  | some ts =>
    rw [hfind] at hacq
    dsimp only at hacq ⊢
    by_cases hcond : ts ≠ 0 ∧ t - ts ≤ START_GUARD_TTL
    · rw [if_pos hcond] at hacq
      exact absurd hacq (by simp)
    · rw [if_neg hcond]

/-- C4 counterexample: with `force_new_job` the `/start` handler skips the
active-job check entirely (`if not force_new:` guards the whole check), so a
new job is created for a campaign that has a running job — not "only after
confirming the campaign has no active job". -/
theorem C4_force_new_counterexample :
    activeJobs [⟨"j1", "c1", "running", false, 0⟩] "c1" ≠ []
    ∧ (startGate [] [⟨"j1", "c1", "running", false, 0⟩]
        ⟨true, "c1", true, true, 10⟩).1 = .proceed := by
  constructor
  · decide
  · decide

/-- C4 as amended: with the guard free, a start without `force_new_job`
against a campaign with an active job is rejected 409 (`conflict`) before any
job is created; a second acquire of the same campaign guard within the 180 s
TTL fails, and a start whose acquire fails is rejected 429
(`tooManyRequests`), not 409; and with `force_new_job` the gate proceeds to
job creation unconditionally — the active-job check is skipped. -/
theorem C4_start_gate_amended :
    (∀ (g : GuardMap) (jobs : List GateJob) (req : StartRequest),
      req.permissionOk = true → pyStrip req.campaignId ≠ "" → req.campaignValid = true →
      (startGuardAcquire g req.campaignId req.now).1 = true →
      req.forceNewJob = false → activeJobs jobs (pyStrip req.campaignId) ≠ [] →
      (startGate g jobs req).1 = .conflict)
    ∧ (∀ (g : GuardMap) (c : String) (t1 t2 : ℚ),
      pyStrip c ≠ "" → 0 < t1 → t2 - t1 ≤ START_GUARD_TTL →
      (startGuardAcquire g c t1).1 = true →
      (startGuardAcquire (startGuardAcquire g c t1).2 c t2).1 = false)
    ∧ (∀ (g : GuardMap) (jobs : List GateJob) (req : StartRequest),
      (startGuardAcquire g req.campaignId req.now).1 = false →
      req.permissionOk = true → pyStrip req.campaignId ≠ "" → req.campaignValid = true →
      (startGate g jobs req).1 = .tooManyRequests)
    ∧ (∀ (g : GuardMap) (jobs : List GateJob) (req : StartRequest),
      req.permissionOk = true → pyStrip req.campaignId ≠ "" → req.campaignValid = true →
      (startGuardAcquire g req.campaignId req.now).1 = true →
      req.forceNewJob = true →
      (startGate g jobs req).1 = .proceed) := by
  refine ⟨?_, ?_, ?_, ?_⟩
  · intro g jobs req hperm hcid hvalid hacq hforce hactive
    simp [startGate, hperm, hcid, hvalid, hacq, hforce, hactive]
  · intro g c t1 t2 hc ht1 httl hacq
    rw [startGuardAcquire_spec g c t1 hc hacq]
    simp only [startGuardAcquire, if_neg hc]
    have hfind : (((guardSet (g.filter (fun p => ¬(START_GUARD_TTL < t1 - p.2)))
        (pyStrip c) t1).filter (fun p => ¬(START_GUARD_TTL < t2 - p.2))).find?
        (fun p => p.1 == pyStrip c)) = some (pyStrip c, t1) := by
      refine find?_filter_of_find? _ _ _ _ (guardSet_find _ _ _) ?_
      simp only [decide_eq_true_eq, Bool.not_eq_true']
      simpa using httl
    rw [hfind]
    simp only [Option.map_some']
    rw [if_pos ⟨by exact ne_of_gt ht1, httl⟩]
  · intro g jobs req hacq hperm hcid hvalid
    simp [startGate, hperm, hcid, hvalid, hacq]
  · intro g jobs req hperm hcid hvalid hacq hforce
    simp [startGate, hperm, hcid, hvalid, hacq, hforce]

/-- Witness for `C4_start_gate_amended`: concrete requests for campaign `c1`
with a running job `j1`; the no-force request gets 409, the guard refuses a
second acquire 5 s after the first (and the corresponding start yields 429),
and the forced request proceeds. -/
theorem C4_start_gate_amended_witness :
    (startGate [] [⟨"j1", "c1", "running", false, 0⟩]
        ⟨true, "c1", true, false, 5⟩).1 = .conflict
    ∧ (startGuardAcquire (startGuardAcquire [] "c1" 5).2 "c1" 10).1 = false
    ∧ (startGate (startGuardAcquire [] "c1" 5).2 [⟨"j1", "c1", "running", false, 0⟩]
        ⟨true, "c1", true, false, 10⟩).1 = .tooManyRequests
    ∧ (startGate [] [⟨"j1", "c1", "running", false, 0⟩]
        ⟨true, "c1", true, true, 5⟩).1 = .proceed := by
  have hacq2 := C4_start_gate_amended.2.1 [] "c1" 5 10 (by decide) (by norm_num)
    (by rw [show (10 : ℚ) - 5 = 5 by norm_num]; decide) (by decide)
  exact ⟨C4_start_gate_amended.1 [] _ _ rfl (by decide) rfl (by decide) rfl (by decide),
    hacq2,
    C4_start_gate_amended.2.2.1 _ _ _ hacq2 rfl (by decide) rfl,
    C4_start_gate_amended.2.2.2 [] _ _ rfl (by decide) rfl (by decide) rfl⟩

/-! ## Scoped backoff: the scheduler's `blocked` branch (C6)

`smtp_send_job`'s per-chunk attempt loop, lines 9338-9393 of shiva_app.py:
what happens when the preflight gate blocks one chunk attempt for the pair
`(receiver_domain, sender_domain)`. Job-UI bookkeeping (`current_chunk_info`,
log lines, the `rel_attempt > max_backoff_retries` error log) has no effect
on the scheduling state and is omitted. -/

def alGet {κ ν : Type} [DecidableEq κ] (m : List (κ × ν)) (k : κ) : Option ν :=
  (m.find? (fun p => decide (p.1 = k))).map (·.2)

def alSet {κ ν : Type} [DecidableEq κ] (m : List (κ × ν)) (k : κ) (v : ν) : List (κ × ν) :=
  match m with
  | [] => [(k, v)]
  | p :: rest => if p.1 = k then (k, v) :: rest else p :: alSet rest k v

theorem alGet_alSet_self {κ ν : Type} [DecidableEq κ] (m : List (κ × ν)) (k : κ) (v : ν) :
    alGet (alSet m k v) k = some v := by
  induction m with
  | nil => simp [alSet, alGet, List.find?]
  | cons p rest ih =>
    by_cases h : p.1 = k
    · simp [alSet, h, alGet, List.find?]
    · have hd : decide (p.1 = k) = false := decide_eq_false h
      simp only [alSet, if_neg h, alGet, List.find?, hd]
      exact ih

/-- One record of `job.push_backoff` (the scheduling-relevant fields). -/
structure BackoffEntry where
  chunk : Nat
  size : Nat
  attempt : Nat
  nextRetryTs : ℚ
  receiverDomain : String
  senderDomain : String
deriving DecidableEq

/-- The scheduler-loop state the block branch reads and writes. -/
structure SchedState where
  attempt : Nat
  relationBackoffAttempts : List ((String × String) × Nat)
  relationBackoffUntil : List ((String × String) × ℚ)
  deferredWaitUntil : ℚ
  deferredCount : Nat
  providerBuckets : List (String × List String)
  providerNextRetryTs : List (String × ℚ)
  chunksBackoff : Nat
  backoffLog : List BackoffEntry
deriving DecidableEq

/-- The `if blocked:` branch (shiva_app.py:9338-9393): bump the per-pair
attempt counter, set the pair's `next_retry_ts = now + min(backoff_max_s,
backoff_base_s * 2^(attempts-1))`, record the backoff entry, and only when
the deferral count reaches the number of sender identities requeue the chunk
to the head of its receiver-domain bucket (returning `true` for the loop's
`break`); otherwise the loop `continue`s with the next rotated sender
(returning `false`). -/
def blockStep (st : SchedState) (now base cap : ℚ) (chunk : List String)
    (chunkIdx : Nat) (targetDomain senderDomain : String) (nSenders : Nat) :
    SchedState × Bool :=
  let key := (targetDomain, senderDomain)
  let relAttempt := (alGet st.relationBackoffAttempts key).getD 0 + 1
  let waitS := min cap (base * 2 ^ (relAttempt - 1))
  let nextTs := now + waitS
  let dwu := max st.deferredWaitUntil nextTs
  let entry : BackoffEntry := ⟨chunkIdx, chunk.length, relAttempt, nextTs,
    targetDomain, senderDomain⟩
  let st2 : SchedState :=
    { st with
        attempt := st.attempt + 1
        relationBackoffAttempts := alSet st.relationBackoffAttempts key relAttempt
        relationBackoffUntil := alSet st.relationBackoffUntil key nextTs
        deferredWaitUntil := dwu
        deferredCount := st.deferredCount + 1
        chunksBackoff := st.chunksBackoff + 1
        backoffLog := st.backoffLog ++ [entry] }
  if max 1 nSenders ≤ st.deferredCount + 1 then
    ({ st2 with
        providerBuckets := alSet st2.providerBuckets targetDomain
          (chunk ++ (alGet st2.providerBuckets targetDomain).getD [])
        providerNextRetryTs := alSet st2.providerNextRetryTs targetDomain
          (max ((alGet st2.providerNextRetryTs targetDomain).getD 0) dwu) }, true)
  else (st2, false)

/-- C6 counterexample: with two sender identities configured, the first block
of a chunk does NOT requeue it to the head of its receiver-domain bucket —
the attempt loop retries the same chunk with the next rotated sender
(`continue`), and only the pair's backoff bookkeeping is updated. The claim's
"the chunk is requeued to the head of its bucket" on every block is false. -/
theorem C6_block_requeue_counterexample :
    ((blockStep ⟨0, [], [], 0, 0, [("gmail.com", [])], [], 0, []⟩ 1000 60 1800
        ["a@gmail.com"] 0 "gmail.com" "send.er" 2).1.providerBuckets
      = [("gmail.com", [])])
    ∧ (blockStep ⟨0, [], [], 0, 0, [("gmail.com", [])], [], 0, []⟩ 1000 60 1800
        ["a@gmail.com"] 0 "gmail.com" "send.er" 2).2 = false
    ∧ alGet (blockStep ⟨0, [], [], 0, 0, [("gmail.com", [])], [], 0, []⟩ 1000 60 1800
        ["a@gmail.com"] 0 "gmail.com" "send.er" 2).1.relationBackoffAttempts
        ("gmail.com", "send.er") = some 1 := by
  refine ⟨?_, ?_, ?_⟩ <;> decide

/-- C6 as amended: a preflight block for `(receiver_domain, sender_domain)`
always increments the pair's scoped attempt counter and sets its
`next_retry_ts = now + base * 2^(attempts-1)` capped at the configured
maximum; but the chunk is requeued to the head of its receiver-domain bucket
only when the blocks/deferrals of this chunk's attempt loop have covered
every configured sender identity (`deferred_count ≥ max(1, #senders)` — in
particular immediately when a single sender is configured); otherwise the
attempt loop retries the same chunk at once with the next rotated sender. -/
theorem C6_block_backoff_amended (st : SchedState) (now base cap : ℚ)
    (chunk : List String) (chunkIdx : Nat) (dom sdom : String) (nSenders : Nat) :
    alGet (blockStep st now base cap chunk chunkIdx dom sdom nSenders).1.relationBackoffAttempts
        (dom, sdom)
      = some ((alGet st.relationBackoffAttempts (dom, sdom)).getD 0 + 1)
    ∧ alGet (blockStep st now base cap chunk chunkIdx dom sdom nSenders).1.relationBackoffUntil
        (dom, sdom)
      = some (now + min cap (base * 2 ^ ((alGet st.relationBackoffAttempts (dom, sdom)).getD 0)))
    ∧ (blockStep st now base cap chunk chunkIdx dom sdom nSenders).1.chunksBackoff
      = st.chunksBackoff + 1
    ∧ ((blockStep st now base cap chunk chunkIdx dom sdom nSenders).2 = true
      ↔ max 1 nSenders ≤ st.deferredCount + 1)
    ∧ ((blockStep st now base cap chunk chunkIdx dom sdom nSenders).2 = true →
      alGet (blockStep st now base cap chunk chunkIdx dom sdom nSenders).1.providerBuckets dom
        = some (chunk ++ (alGet st.providerBuckets dom).getD []))
    ∧ ((blockStep st now base cap chunk chunkIdx dom sdom nSenders).2 = false →
      (blockStep st now base cap chunk chunkIdx dom sdom nSenders).1.providerBuckets
        = st.providerBuckets) := by
  simp only [blockStep, Nat.add_sub_cancel]
  by_cases hcond : max 1 nSenders ≤ st.deferredCount + 1
  · rw [if_pos hcond]
    refine ⟨alGet_alSet_self _ _ _, alGet_alSet_self _ _ _, rfl, by simp [hcond], ?_, ?_⟩
    · intro _
      exact alGet_alSet_self _ _ _
    · intro h
      exact absurd h (by simp)
  · rw [if_neg hcond]
    refine ⟨alGet_alSet_self _ _ _, alGet_alSet_self _ _ _, rfl, by simp [hcond], ?_, ?_⟩
    · intro h
      exact absurd h (by simp)
    · intro _
      rfl

/-- Witness for `C6_block_backoff_amended`: with one configured sender the
first block requeues the chunk to the head of its bucket; with two it does
not. -/
theorem C6_block_backoff_amended_witness :
    alGet (blockStep ⟨0, [], [], 0, 0, [("gmail.com", ["b@gmail.com"])], [], 0, []⟩
        1000 60 1800 ["a@gmail.com"] 0 "gmail.com" "send.er" 1).1.providerBuckets "gmail.com"
      = some ["a@gmail.com", "b@gmail.com"]
    ∧ (blockStep ⟨0, [], [], 0, 0, [("gmail.com", ["b@gmail.com"])], [], 0, []⟩
        1000 60 1800 ["a@gmail.com"] 0 "gmail.com" "send.er" 2).1.providerBuckets
      = [("gmail.com", ["b@gmail.com"])]
    ∧ (blockStep ⟨0, [], [], 0, 0, [("gmail.com", ["b@gmail.com"])], [], 0, []⟩
        1000 60 1800 ["a@gmail.com"] 0 "gmail.com" "send.er" 1).1.chunksBackoff = 1 := by
  refine ⟨?_, ?_, ?_⟩
  · have := ((C6_block_backoff_amended ⟨0, [], [], 0, 0, [("gmail.com", ["b@gmail.com"])], [], 0, []⟩
      1000 60 1800 ["a@gmail.com"] 0 "gmail.com" "send.er" 1).2.2.2.2.1 (by decide))
    simpa using this
  · exact ((C6_block_backoff_amended ⟨0, [], [], 0, 0, [("gmail.com", ["b@gmail.com"])], [], 0, []⟩
      1000 60 1800 ["a@gmail.com"] 0 "gmail.com" "send.er" 2).2.2.2.2.2 (by decide))
  · exact ((C6_block_backoff_amended ⟨0, [], [], 0, 0, [("gmail.com", ["b@gmail.com"])], [], 0, []⟩
      1000 60 1800 ["a@gmail.com"] 0 "gmail.com" "send.er" 1).2.2.1)

/-- Witness for `C8_classification_amended` at concrete inputs. -/
theorem C8_classification_amended_witness :
    (classifyAccountingResponse [("response", "421 try later")] "bounced").1
      = "temporary_error"
    ∧ (classifyAccountingResponse [("dsnStatus", "5.1.1")] "delivered").1 = "blocked"
    ∧ (recordAccountingError 3 ⟨[], []⟩ "x@y.com" "bounced"
        [("response", "550 no such user")]).accountingLastErrors.length ≤ 80 :=
  ⟨C8_classification_amended.2.2.1 [("response", "421 try later")] "bounced" (by decide),
    C8_classification_amended.2.2.2.2.2.2.1 [("dsnStatus", "5.1.1")] "delivered"
      (by decide) (by decide),
    C8_classification_amended.2.2.2.2.2.2.2.2.2 3 ⟨[], []⟩ "x@y.com" "bounced"
      [("response", "550 no such user")] (by decide)⟩

/-! ## The bridge's pull pipeline: `_read_from_cursor` (C7)

pmta_accounting_bridge.py lines 426-525 and 723-908.  File contents are
embedded as strings read at character granularity (the repository's
accounting files are ASCII, where `fh.tell()` offsets coincide with
character counts), and a cursor is embedded as its decoded payload record:
`_encode_cursor` is injective on the ordered payload, so payload equality is
cursor-string equality for cursors the bridge itself produced. -/

/-- `dict.setdefault(k, v)`: append at the end only when the key is absent. -/
def evSetDefault (ev : AcctEvent) (k v : String) : AcctEvent :=
  if (evGet ev k).isSome then ev else ev ++ [(k, v)]

/-- The bridge's `_parse_accounting_line(line, source_file=..,
line_no_or_offset=..)` (pmta_accounting_bridge.py:426-485): the parsed event
(or `none` for blank / JSON-failure / header rows) and the updated
`_CSV_HEADER_STATE`.  Unlike shiva's variant it seeds the event with
`raw`/`source_file`/`line_no_or_offset` and has no email/msgid fallback.
`line_no_or_offset` is an integer in the source; its consumers only ever
stringify it, so it is stored in decimal form. -/
def parseAccountingLineB (line srcFile : String) (lineNo : Nat)
    (hdrs : HeaderState) : Option AcctEvent × HeaderState :=
  let s := pyStrip line
  if s = "" then (none, hdrs)
  else if pyStartsWith s "\x7b" ∧ pyEndsWith s "\x7d" then
    match jsonParseFlat s with
    | some obj =>
      (some (evSetDefault (evSetDefault obj "source_file" srcFile)
        "line_no_or_offset" (Nat.repr lineNo)), hdrs)
    | none => (none, hdrs)
  else
    let fields := parseFields s
    if fields ≠ [] ∧ fields.any (fun x => pyLower x ∈ headerNames) then
      (none, hdrSet hdrs srcFile (fields.map (fun x => pyLower (pyStrip x))))
    else
      let hdr := hdrGet hdrs srcFile
      let ev0 : AcctEvent :=
        [("raw", s), ("source_file", srcFile), ("line_no_or_offset", Nat.repr lineNo)]
      if hdr ≠ [] ∧ hdr.length = fields.length then
        (some (evSetMany ev0 (hdr.zip fields)), hdrs)
      else
        let ev1 := match fields.head? with
          | some f0 => evSet ev0 "type" f0
          | none => ev0
        let ev2 :=
          if 9 ≤ fields.length then
            evSet (evSet (evSet (evSet (evSet ev1
              "mailfrom" (fields.getD 3 "")) "rcpt" (fields.getD 4 ""))
              "status" (fields.getD 6 "")) "dsnStatus" (fields.getD 7 ""))
              "dsnDiag" (fields.getD 8 "")
          else ev1
        (some ev2, hdrs)

/-- `re.fullmatch(r"[a-f0-9]\x7b12\x7d", raw)` as a predicate. -/
def fullmatchHex12 (s : String) : Bool :=
  s.data.length = 12 && s.data.all isHexL

/-- `([a-f0-9]\x7b12\x7d)\b` at one position (the leading `\b` is handled by
the caller's scan): twelve hex chars not followed by a word character. -/
def hex12At (l : List Char) : Option (List Char) :=
  let g := l.take 12
  if g.length = 12 ∧ g.all isHexL then
    match l.drop 12 with
    | [] => some g
    | c :: _ => if isWordChar c then none else some g
  else none

/-- `re.search(r"\b([a-f0-9]\x7b12\x7d)\b", ...)`: leftmost word-bounded
12-hex run. -/
def searchHex12 (prev : Option Char) : List Char → Option (List Char)
  | [] => none
  | c :: t =>
    match (if boundaryBefore prev then hex12At (c :: t) else none) with
    | some g => some g
    | none => searchHex12 (some c) t

/-- The bridge's `_normalize_job_id` (pmta_accounting_bridge.py:159-174).
Its `_extract_job_id_from_text` lowercases its input up front and then runs
the same IGNORECASE `_JOBID_RE_1`/`_JOBID_RE_2` search as shiva's, which is
exactly `extractJobIdFromTextS` (whose embedding already matches on the
lowercased text). -/
def normalizeJobId (value : String) : String :=
  let raw := pyLower (pyStrip value)
  if raw = "" then ""
  else if fullmatchHex12 raw then raw
  else
    let fromText := extractJobIdFromTextS raw
    if fromText ≠ "" then fromText
    else
      match searchHex12 none raw.data with
      | some g => pyLower (pyStrip ⟨g⟩)
      | none => raw

/-- The bridge's `_event_job_id` (pmta_accounting_bridge.py:217-232). -/
def eventJobId (ev : AcctEvent) : String :=
  let jid := normalizeJobId (eventValue ev ["header_x-job-id", "x-job-id"])
  if jid ≠ "" then jid
  else
    let msgid := eventValue ev
      ["header_message-id", "message-id", "message_id", "msgid", "messageid"]
    let jid2 := normalizeJobId (parseIdsFromMessageId msgid).1
    if jid2 ≠ "" then jid2
    else
      let jid3 := normalizeJobId (eventValue ev
        ["job-id", "job_id", "jobid", "envid", "env-id"])
      if jid3 ≠ "" then jid3 else ""

/-- The bridge's `_event_campaign_id` (pmta_accounting_bridge.py:235-242). -/
def eventCampaignId (ev : AcctEvent) : String :=
  let cid := pyLower (pyStrip (eventValue ev ["header_x-campaign-id", "x-campaign-id"]))
  if cid ≠ "" then cid
  else
    (parseIdsFromMessageId (eventValue ev
      ["header_message-id", "message-id", "message_id", "msgid", "messageid"])).2

/-- The record `_structured_event` returns (pmta_accounting_bridge.py:505-525). -/
structure StructuredEvent where
  typ : String
  outcome : String
  timeLogged : String
  orig : String
  rcpt : String
  jobId : String
  campaignId : String
  messageId : String
  dsnAction : String
  dsnStatus : String
  dsnDiag : String
  vmta : String
  dlvSourceIp : String
  dlvDestIp : String
  bounceCat : String
  sourceFile : String
  lineNoOrOffset : String
deriving DecidableEq

/-- `_structured_event` (pmta_accounting_bridge.py:505-525). -/
def structuredEvent (ev : AcctEvent) : StructuredEvent where
  typ := bridgeEvTyp ev
  outcome := bridgeNormalizedOutcome ev
  timeLogged := eventValue ev ["timeLogged", "timelogged", "time_logged", "time"]
  orig := eventValue ev ["orig", "mailfrom", "from"]
  rcpt := eventValue ev ["rcpt", "recipient", "email", "to", "rcpt_to"]
  jobId := eventJobId ev
  campaignId := eventCampaignId ev
  messageId := eventValue ev
    ["header_message-id", "message-id", "message_id", "msgid", "messageid"]
  dsnAction := eventValue ev ["dsnAction", "dsn_action"]
  dsnStatus := eventValue ev ["dsnStatus", "dsn_status"]
  dsnDiag := eventValue ev ["dsnDiag", "dsn_diag"]
  vmta := eventValue ev ["vmta"]
  dlvSourceIp := eventValue ev ["dlvSourceIp", "dlv_source_ip"]
  dlvDestIp := eventValue ev ["dlvDestinationIp", "dlv_dest_ip", "dlvDestinationIP"]
  bounceCat := eventValue ev ["bounceCat", "bounce_cat"]
  sourceFile := evGetD ev "source_file"
  lineNoOrOffset := (evGet ev "line_no_or_offset").getD ""

/-- One entry of the `files` list built by `_recent_matching_files`
(pmta_accounting_bridge.py:753-761), together with the file's current
content.  The claim's "unchanged file set" premise is stated as
`size = content.length` in the theorem: the stat'd size still describes the
bytes on disk, and no file of the snapshot has disappeared (so the
`fp.exists()` re-check of line 826 never skips a file). -/
structure FileMeta where
  path : String
  name : String
  inode : Nat
  size : Nat
  mtime : ℚ
  content : String
deriving DecidableEq

/-- A decoded cursor payload (`_decode_cursor` / `_encode_cursor`,
pmta_accounting_bridge.py:723-737).  `offset` is an `Int` because the payload
is clamped with `max(0, ...)` only on read. -/
structure Cursor where
  v : Nat
  path : String
  inode : Nat
  offset : Int
  mtime : ℚ
deriving DecidableEq

/-- The response of `_read_from_cursor`: `items`, `next_cursor`, `has_more`
and the `stats` counters. -/
structure PullResult where
  items : List StructuredEvent
  nextCursor : Cursor
  hasMore : Bool
  parsed : Nat
  skipped : Nat
  unknownOutcome : Nat
deriving DecidableEq

/-- `Path(p).name`: the part after the last `/`. -/
def basenameAux : List Char → List Char → List Char
  | [], acc => acc.reverse
  | c :: rest, acc => if c = '/' then basenameAux rest [] else basenameAux rest (c :: acc)

def pyBasename (s : String) : String := ⟨basenameAux s.data []⟩

/-- Python `str <` (code-point lexicographic). -/
def strLtL : List Char → List Char → Bool
  | [], [] => false
  | [], _ :: _ => true
  | _ :: _, [] => false
  | a :: as, b :: bs => if a < b then true else if b < a then false else strLtL as bs

/-- Python tuple comparison `(mtime, name) > (cursor_mtime, cursor_name)`. -/
def tupGtB (a b : ℚ × String) : Bool :=
  decide (b.1 < a.1) || (decide (a.1 = b.1) && strLtL b.2.data a.2.data)

/-- The cursor-match scan of pmta_accounting_bridge.py:784-793: the first
file whose inode and path equal the cursor's, together with the files after
it. -/
def findCursorSplit (C : Cursor) : List FileMeta → Option (FileMeta × List FileMeta)
  | [] => none
  | f :: rest =>
    if f.inode = C.inode ∧ f.path = C.path then some (f, rest)
    else findCursorSplit C rest

/-- The fallback scan of pmta_accounting_bridge.py:795-800: the first file
strictly after the cursor position in `(mtime, basename)` order. -/
def findAfterCursor (cm : ℚ) (cn : String) : List FileMeta → Option (FileMeta × List FileMeta)
  | [] => none
  | f :: rest =>
    if tupGtB (f.mtime, f.name) (cm, cn) then some (f, rest)
    else findAfterCursor cm cn rest

/-- The accumulator of the reading loops: header state, collected items, the
current read offset and the three `stats` counters. -/
structure ReadAcc where
  hdrs : HeaderState
  items : List StructuredEvent
  off : Nat
  skipped : Nat
  parsed : Nat
  unknownOutcome : Nat

/-- `fh.readline()` until EOF, split eagerly: each piece keeps its trailing
newline; a final piece without one is kept, and nothing follows the end. -/
def splitLinesAux : List Char → List Char → List (List Char)
  | [], acc => if acc.isEmpty then [] else [acc.reverse]
  | c :: rest, acc =>
    if c = '\n' then (c :: acc).reverse :: splitLinesAux rest []
    else splitLinesAux rest (c :: acc)

def splitLines (l : List Char) : List (List Char) := splitLinesAux l []

/-- The CSV header priming of pmta_accounting_bridge.py:836-843: when
resuming mid-file in a `.csv` whose header is not yet learned, parse line 1
(only the header-state effect survives — the parse result is discarded and
the handle seeks back). -/
def primeHeader (hdrs : HeaderState) (name : String) (content : List Char)
    (off : Nat) : HeaderState :=
  if off ≠ 0 ∧ pyEndsWith (pyLower name) ".csv" ∧ hdrGet hdrs name = [] then
    match splitLines content with
    | [] => hdrs
    | l :: _ => (parseAccountingLineB (pyStrip ⟨l⟩) name 1 hdrs).2
  else hdrs

/-- The inner per-line loop of pmta_accounting_bridge.py:846-863: the
`len(items) < limit` guard runs before each `readline`; blank and
unparseable lines count as `skipped`, parsed ones are structured and
appended, `unknown` outcomes are counted, and `current_off` advances to
`fh.tell()` after each consumed line. -/
def fileLines (name : String) (limit : Nat) : ReadAcc → List (List Char) → ReadAcc
  | acc, [] => acc
  | acc, l :: rest =>
    if limit ≤ acc.items.length then acc
    else
      let off2 := acc.off + l.length
      let s := pyStrip ⟨l⟩
      if s = "" then
        fileLines name limit
          { acc with off := off2, skipped := acc.skipped + 1 } rest
      else
        match parseAccountingLineB s name off2 acc.hdrs with
        | (none, h2) =>
          fileLines name limit
            { acc with hdrs := h2, off := off2, skipped := acc.skipped + 1 } rest
        | (some ev, h2) =>
          let stv := structuredEvent ev
          fileLines name limit
            { acc with
                hdrs := h2
                off := off2
                items := acc.items ++ [stv]
                parsed := acc.parsed + 1
                unknownOutcome :=
                  if stv.outcome = "unknown" then acc.unknownOutcome + 1
                  else acc.unknownOutcome } rest

/-- One file body (pmta_accounting_bridge.py:831-863): prime the CSV header
if resuming mid-file, seek to the current offset and consume lines. -/
def readFile (limit : Nat) (acc : ReadAcc) (f : FileMeta) : ReadAcc :=
  let h1 := primeHeader acc.hdrs f.name f.content.data acc.off
  fileLines f.name limit { acc with hdrs := h1 }
    (splitLines (f.content.data.drop acc.off))

/-- The outer `while` of pmta_accounting_bridge.py:823-872, entered with a
valid index and `len(items) < limit`: read the current file; on reaching the
limit break there (`consumed_up_to_idx` is the file just read), otherwise
move to the next file at offset 0, or — after the last file — finish with
the offset parked at its size.  Returns the accumulator, the consumed file
and the files not yet consumed. -/
def filesLoop (limit : Nat) : FileMeta → List FileMeta → ReadAcc →
    ReadAcc × FileMeta × List FileMeta
  | f, [], acc =>
    let acc2 := readFile limit acc f
    if limit ≤ acc2.items.length then (acc2, f, [])
    else ({ acc2 with off := f.size }, f, [])
  | f, g :: rs, acc =>
    let acc2 := readFile limit acc f
    if limit ≤ acc2.items.length then (acc2, f, g :: rs)
    else filesLoop limit g rs { acc2 with off := 0 }

/-- The post-loop assembly of pmta_accounting_bridge.py:819-908 given the
start file and offset: run the loop (skipped entirely when `limit` is 0,
matching the `len(items) < limit` entry check — a non-positive limit in the
source), then build `next_cursor` from the consumed file and `has_more` from
its unread tail or the files after it.  The `consumed_up_to_idx >= len`
clamp of lines 877-879 is unreachable (the index only ever names a file of
the list) and the `if not files` re-check of line 874 is dead on this path. -/
def readMain (hdrs : HeaderState) (f : FileMeta) (rest : List FileMeta)
    (off0 limit : Nat) : PullResult :=
  let acc0 : ReadAcc := ⟨hdrs, [], off0, 0, 0, 0⟩
  let res := if limit = 0 then (acc0, f, rest) else filesLoop limit f rest acc0
  ⟨res.1.items,
    ⟨1, res.2.1.path, res.2.1.inode, (res.1.off : Int), res.2.1.mtime⟩,
    decide (res.1.off < res.2.1.size) || !res.2.2.isEmpty,
    res.1.parsed, res.1.skipped, res.1.unknownOutcome⟩

/-- The cursor of the early-return and not-found branches: the newest file,
fully consumed. -/
def tailCursor (f : FileMeta) : Cursor := ⟨1, f.path, f.inode, (f.size : Int), f.mtime⟩

/-- The empty response of pmta_accounting_bridge.py:802-817. -/
def emptyPull (tail : FileMeta) : PullResult := ⟨[], tailCursor tail, false, 0, 0, 0⟩

/-- `_read_from_cursor(files, cursor_payload, limit)`
(pmta_accounting_bridge.py:770-908).  `none` models the `files[-1]`
`IndexError` on an empty file list; a falsy (empty-dict) payload is the
`none` cursor.  Cursor fields are read as in lines 779-782, with `offset`
clamped to `max(0, ...)` and reset to 0 when it exceeds the matched file's
size. -/
def readFromCursor (hdrs : HeaderState) (files : List FileMeta)
    (cursorPayload : Option Cursor) (limit : Nat) : Option PullResult :=
  match cursorPayload with
  | none =>
    match files with
    | [] => none
    | f :: rest => some (readMain hdrs f rest 0 limit)
  | some C =>
    match findCursorSplit C files with
    | some (cur, rest) =>
      let coff := (max 0 C.offset).toNat
      some (readMain hdrs cur rest (if coff ≤ cur.size then coff else 0) limit)
    | none =>
      match findAfterCursor C.mtime (pyBasename C.path) files with
      | some (f, rest) => some (readMain hdrs f rest 0 limit)
      | none => files.getLast?.map emptyPull

theorem findCursorSplit_last (C : Cursor) (fs : List FileMeta) (f : FileMeta)
    (hno : ∀ g ∈ fs, ¬(g.inode = C.inode ∧ g.path = C.path))
    (hf : f.inode = C.inode ∧ f.path = C.path) :
    findCursorSplit C (fs ++ [f]) = some (f, []) := by
  induction fs with
  | nil => simp [findCursorSplit, hf]
  | cons g rest ih =>
    have hg := hno g (by simp)
    simp only [List.cons_append, findCursorSplit, if_neg hg]
    exact ih (fun x hx => hno x (by simp [hx]))

theorem readMain_eof (hdrs : HeaderState) (f : FileMeta) (limit : Nat)
    (hsize : f.size = f.content.length) :
    readMain hdrs f [] f.size limit
      = ⟨[], ⟨1, f.path, f.inode, (f.size : Int), f.mtime⟩, false, 0, 0, 0⟩ := by
  have hdrop : f.content.data.drop f.size = [] := by
    rw [hsize]
    exact List.drop_length _
  have hread : ∀ h0 : HeaderState,
      readFile limit ⟨h0, [], f.size, 0, 0, 0⟩ f
        = ⟨primeHeader h0 f.name f.content.data f.size, [], f.size, 0, 0, 0⟩ := by
    intro h0
    simp only [readFile, hdrop]
    rfl
  by_cases hl : limit = 0
  · simp [readMain, if_pos hl, Nat.lt_irrefl]
  · have hpos : ¬ limit ≤ ([] : List StructuredEvent).length := by
      simp
      omega
    simp only [readMain, if_neg hl, filesLoop, hread, if_neg hpos]
    simp [Nat.lt_irrefl]

/-- C7: for a bridge pull with input cursor `C` over an unchanged file set —
`C` names the newest matching file by path and inode, no earlier file of the
snapshot shadows that identity, `C`'s offset equals that file's size, and
the file's stat'd size still equals its content (no appended bytes) — the
response has an empty `items` list, `next_cursor` equal to `C`, and
`has_more` equal to `false` (with all `stats` counters zero). -/
theorem C7_cursor_idempotent_on_empty_delta (hdrs : HeaderState)
    (fs : List FileMeta) (f : FileMeta) (C : Cursor) (limit : Nat)
    (hno : ∀ g ∈ fs, ¬(g.inode = C.inode ∧ g.path = C.path))
    (hinode : f.inode = C.inode) (hpath : f.path = C.path)
    (hoff : C.offset = (f.size : Int)) (hmtime : C.mtime = f.mtime)
    (hv : C.v = 1) (hsize : f.size = f.content.length) :
    readFromCursor hdrs (fs ++ [f]) (some C) limit
      = some ⟨[], C, false, 0, 0, 0⟩ := by
  have hsplit := findCursorSplit_last C fs f hno ⟨hinode, hpath⟩
  have hcoff : (max 0 C.offset).toNat = f.size := by
    rw [hoff]
    omega
  have hC : (⟨1, f.path, f.inode, (f.size : Int), f.mtime⟩ : Cursor) = C := by
    cases C with
    | mk v p i o m =>
      simp only [Cursor.mk.injEq]
      exact ⟨hv.symm, hpath, hinode, hoff.symm, hmtime.symm⟩
  simp only [readFromCursor, hsplit]
  rw [hcoff, if_pos (le_refl f.size), readMain_eof hdrs f limit hsize, hC]

/-- Witness for `C7_cursor_idempotent_on_empty_delta`: a one-file snapshot
whose cursor sits at end-of-file. -/
theorem C7_cursor_idempotent_on_empty_delta_witness :
    readFromCursor [] [⟨"/var/log/pmta/acct-20260101.csv", "acct-20260101.csv",
        7, 10, 1700000000, "d,r@e.com\n"⟩]
      (some ⟨1, "/var/log/pmta/acct-20260101.csv", 7, 10, 1700000000⟩) 500
      = some ⟨[], ⟨1, "/var/log/pmta/acct-20260101.csv", 7, 10, 1700000000⟩,
          false, 0, 0, 0⟩ :=
  C7_cursor_idempotent_on_empty_delta []
    [] ⟨"/var/log/pmta/acct-20260101.csv", "acct-20260101.csv",
      7, 10, 1700000000, "d,r@e.com\n"⟩
    ⟨1, "/var/log/pmta/acct-20260101.csv", 7, 10, 1700000000⟩ 500
    (by simp) rfl rfl rfl rfl rfl (by decide)

end Pmta
